import Mathlib

/-!
Verification of the chinese-pronunciation-api repository.

The development shallowly embeds the two Azure-functions handlers of the
repository (`src/functions/assess.js` and `src/functions/token.js`) into
Lean.  Byte buffers (Node `Buffer`) are modelled as `List Nat` of byte
values, JavaScript strings as Lean `String`, and each fallible JS function
that throws becomes a Lean function returning an explicit error value.
Node library semantics that the source relies on are modelled faithfully:
`buf.toString("ascii", a, b)` clamps the range to the buffer and clears the
high bit of every byte before decoding, `buf.readUInt32LE`/`readUInt16LE`
throw a `RangeError` when the read would leave the buffer (modelled by a
dedicated error value that is proven unreachable), `Buffer.from(s,
"base64")` never throws and drops characters outside the base64 alphabets,
and `buf.subarray(a, b)` clamps its bounds.
-/

namespace PronApi

/-- A byte of a Node `Buffer`, at index `i`; out-of-range indices read 0
(they are only used behind bounds checks, see the checked readers below). -/
def byteAt (buf : List Nat) (i : Nat) : Nat := buf.getD i 0

/-- `buf.readUInt16LE off` value (little endian). -/
def readU16 (buf : List Nat) (off : Nat) : Nat :=
  byteAt buf off + 256 * byteAt buf (off + 1)

/-- `buf.readUInt32LE off` value (little endian). -/
def readU32 (buf : List Nat) (off : Nat) : Nat :=
  byteAt buf off + 256 * byteAt buf (off + 1) +
    65536 * byteAt buf (off + 2) + 16777216 * byteAt buf (off + 3)

/-- Checked `buf.readUInt16LE off`: Node raises `RangeError` when the two
bytes are not inside the buffer, modelled by `none`. -/
def readU16? (buf : List Nat) (off : Nat) : Option Nat :=
  if off + 2 ≤ buf.length then some (readU16 buf off) else none

/-- Checked `buf.readUInt32LE off`. -/
def readU32? (buf : List Nat) (off : Nat) : Option Nat :=
  if off + 4 ≤ buf.length then some (readU32 buf off) else none

/-- `buf.toString("ascii", a, b)` as a byte list: the range is clamped to
the buffer, and Node documents that decoding with the `ascii` encoding
unsets the highest bit of every byte before decoding as latin1. -/
def asciiSlice (buf : List Nat) (a b : Nat) : List Nat :=
  ((buf.take b).drop a).map (fun x => x % 128)

/-- The four ascii bytes of the tag `"RIFF"`. -/
def riffTag : List Nat := [82, 73, 70, 70]

/-- The four ascii bytes of the tag `"WAVE"`. -/
def waveTag : List Nat := [87, 65, 86, 69]

/-- The four ascii bytes of the tag `"fmt "`. -/
def fmtTag : List Nat := [102, 109, 116, 32]

/-- The four ascii bytes of the tag `"data"`. -/
def dataTag : List Nat := [100, 97, 116, 97]

/-- The errors `parseWav` can throw, one constructor per `throw` site of
the source, plus the `RangeError` Node itself would raise on an
out-of-bounds multi-byte read (proven unreachable). -/
inductive WavError where
  | invalidBuffer
  | invalidRiffWave
  | invalidFmtChunk
  | missingFmtChunk
  | missingDataChunk
  | outOfBoundsRead
deriving DecidableEq, Repr

/-- The `err.message` strings of the source's `throw new Error(...)` sites.
`outOfBoundsRead` stands for the message of the `RangeError` Node raises;
it is proven unreachable so its exact text never matters. -/
def WavError.message : WavError → String
  | .invalidBuffer => "Invalid WAV buffer."
  | .invalidRiffWave => "Invalid WAV: expected RIFF/WAVE."
  | .invalidFmtChunk => "Invalid WAV fmt chunk."
  | .missingFmtChunk => "WAV missing fmt chunk."
  | .missingDataChunk => "WAV missing data chunk."
  | .outOfBoundsRead => "Attempt to access memory outside buffer bounds"

/-- The spec file names `InvalidContainer` for the short-buffer, bad-magic
and malformed-format-chunk failures; this classifies which of the thrown
errors belong to that taxon. -/
def WavError.isInvalidContainer : WavError → Bool
  | .invalidBuffer => true
  | .invalidRiffWave => true
  | .invalidFmtChunk => true
  | _ => false

/-- The fields extracted from a `"fmt "` chunk (source lines 38-43). -/
structure FmtInfo where
  audioFormat : Nat
  numChannels : Nat
  sampleRate : Nat
  bitsPerSample : Nat
deriving DecidableEq, Repr

/-- The fields recorded from a `"data"` chunk (source line 47). -/
structure DataInfo where
  dataOffset : Nat
  dataSize : Nat
deriving DecidableEq, Repr

/-- The value returned by `parseWav` (source lines 57-62):
`{ ...fmt, ...data, pcmBytes }`. -/
structure WavHeader where
  audioFormat : Nat
  numChannels : Nat
  sampleRate : Nat
  bitsPerSample : Nat
  dataOffset : Nat
  dataSize : Nat
  pcmBytes : Nat
deriving DecidableEq, Repr

/-- Result of the chunk-scanning `while` loop of `parseWav`: the loop
either runs to completion carrying the last `fmt`/`data` values, throws on
a malformed `"fmt "` chunk, or would trip an out-of-bounds read. -/
inductive ScanOut where
  | done : Option FmtInfo → Option DataInfo → ScanOut
  | fmtErr : ScanOut
  | oob : ScanOut
deriving DecidableEq, Repr

/-- The `while (offset + 8 <= buf.length)` loop of `parseWav`
(source lines 26-52), with `fmt` and `data` as explicit accumulators.
Each multi-byte read is bounds-checked; a failed check yields `.oob`,
standing for the `RangeError` Node would raise. -/
def scanChunks (buf : List Nat) (offset : Nat)
    (fmt : Option FmtInfo) (data : Option DataInfo) : ScanOut :=
  if h : offset + 8 ≤ buf.length then
    let id := asciiSlice buf offset (offset + 4)
    match readU32? buf (offset + 4) with
    | none => .oob
    | some size =>
      let payloadOffset := offset + 8
      if payloadOffset + size > buf.length then
        .done fmt data
      else if id = fmtTag then
        if size < 16 then .fmtErr
        else
          match readU16? buf (payloadOffset + 0), readU16? buf (payloadOffset + 2),
              readU32? buf (payloadOffset + 4), readU16? buf (payloadOffset + 14) with
          | some audioFormat, some numChannels, some sampleRate, some bitsPerSample =>
            scanChunks buf (payloadOffset + size + size % 2)
              (some ⟨audioFormat, numChannels, sampleRate, bitsPerSample⟩) data
          | _, _, _, _ => .oob
      else if id = dataTag then
        scanChunks buf (payloadOffset + size + size % 2) fmt (some ⟨payloadOffset, size⟩)
      else
        scanChunks buf (payloadOffset + size + size % 2) fmt data
  else
    .done fmt data
termination_by buf.length - offset
decreasing_by all_goals omega

/-- `parseWav` (source lines 11-63).  The `Buffer.isBuffer` test of line 12
is vacuous under the typing of the embedding. -/
def parseWav (buf : List Nat) : Except WavError WavHeader :=
  if buf.length < 12 then .error .invalidBuffer
  else if asciiSlice buf 0 4 ≠ riffTag ∨ asciiSlice buf 8 12 ≠ waveTag then
    .error .invalidRiffWave
  else
    match scanChunks buf 12 none none with
    | .oob => .error .outOfBoundsRead
    | .fmtErr => .error .invalidFmtChunk
    | .done none _ => .error .missingFmtChunk
    | .done (some _) none => .error .missingDataChunk
    | .done (some f) (some d) =>
      .ok ⟨f.audioFormat, f.numChannels, f.sampleRate, f.bitsPerSample,
        d.dataOffset, d.dataSize, d.dataSize⟩

/-- `buf.subarray(a, b)` (source lines 159-162): Node clamps both bounds to
the buffer. -/
def subarray (buf : List Nat) (a b : Nat) : List Nat := (buf.take b).drop a

/-! ### Synthetic container builder

The testable properties of the spec quantify over synthetically built
containers: a 12-byte `RIFF`/size/`WAVE` header followed by encoded
chunks, each a 4-byte tag, a 4-byte little-endian length, the payload and
a padding byte when the payload length is odd. -/

/-- A chunk to be encoded: its 4-byte tag and its payload. -/
abbrev Chunk := List Nat × List Nat

/-- Little-endian 4-byte encoding of `n`. -/
def u32le (n : Nat) : List Nat :=
  [n % 256, n / 256 % 256, n / 65536 % 256, n / 16777216 % 256]

/-- The canonical alignment pad: one zero byte after an odd-length payload. -/
def padBytes (n : Nat) : List Nat := if n % 2 = 1 then [0] else []

/-- Encode one chunk. -/
def encodeChunk (c : Chunk) : List Nat :=
  c.1 ++ u32le c.2.length ++ c.2 ++ padBytes c.2.length

/-- Encode a chunk sequence. -/
def encodeChunks : List Chunk → List Nat
  | [] => []
  | c :: rest => encodeChunk c ++ encodeChunks rest

/-- A synthetic container: magic tags around an unvalidated declared size
(bytes 4-8 are not inspected by the parser), then the encoded chunks. -/
def mkRiff (cs : List Chunk) : List Nat :=
  riffTag ++ [0, 0, 0, 0] ++ waveTag ++ encodeChunks cs

/-- A well-formed tag: 4 bytes of 7-bit ascii. -/
def ValidTag (t : List Nat) : Prop := t.length = 4 ∧ ∀ b ∈ t, b < 128

/-- A well-formed chunk: valid tag, length encodable in 4 bytes, byte-valued
payload. -/
def ValidChunk (c : Chunk) : Prop :=
  ValidTag c.1 ∧ c.2.length < 4294967296 ∧ ∀ b ∈ c.2, b < 256

instance : DecidablePred ValidTag := fun t => by
  unfold ValidTag; infer_instance

instance : DecidablePred ValidChunk := fun c => by
  unfold ValidChunk; infer_instance

/-- A well-formed chunk the scan merely skips: neither format nor data. -/
def SkipChunk (c : Chunk) : Prop :=
  ValidChunk c ∧ c.1 ≠ fmtTag ∧ c.1 ≠ dataTag

instance : DecidablePred SkipChunk := fun c => by
  unfold SkipChunk; infer_instance

/-- A usable `"fmt "` payload: at least the 16 PCM bytes, encodable
length, byte values. -/
def FmtOk (f : List Nat) : Prop :=
  16 ≤ f.length ∧ f.length < 4294967296 ∧ ∀ b ∈ f, b < 256

instance : DecidablePred FmtOk := fun f => by
  unfold FmtOk; infer_instance

/-- A usable `"data"` payload: encodable length, byte values. -/
def DataOk (p : List Nat) : Prop :=
  p.length < 4294967296 ∧ ∀ b ∈ p, b < 256

instance : DecidablePred DataOk := fun p => by
  unfold DataOk; infer_instance

/-- The `"fmt "` fields as read from the chunk payload itself. -/
def fmtOfPayload (p : List Nat) : FmtInfo :=
  ⟨readU16 p 0, readU16 p 2, readU32 p 4, readU16 p 14⟩

/-- Specification-level replay of the chunk scan over a chunk list: what
one loop iteration of `scanChunks` does to each encoded chunk in turn. -/
def scanFold (off : Nat) : List Chunk → Option FmtInfo → Option DataInfo → ScanOut
  | [], fmt, data => .done fmt data
  | c :: rest, fmt, data =>
    if c.1 = fmtTag then
      if c.2.length < 16 then .fmtErr
      else scanFold (off + 8 + c.2.length + c.2.length % 2) rest
        (some (fmtOfPayload c.2)) data
    else if c.1 = dataTag then
      scanFold (off + 8 + c.2.length + c.2.length % 2) rest fmt
        (some ⟨off + 8, c.2.length⟩)
    else
      scanFold (off + 8 + c.2.length + c.2.length % 2) rest fmt data

/-! ### JSON values and `JSON.parse`

`readJsonBody` feeds the decoded body text to `JSON.parse`.  The JSON
grammar is modelled exactly (whitespace, literals, strings with escapes,
numbers, arrays, objects, rejection of trailing input); two deliberate
modelling choices: a number is kept as its source lexeme rather than an
IEEE double (no claim inspects numeric values beyond zero-ness), and a
lone surrogate, which a JavaScript string can hold but a Lean `String`
cannot, decodes to U+FFFD (every concrete input used below is
surrogate-free). -/

/-- A parsed JSON value.  Object fields keep their textual order and
duplicates; JavaScript property semantics (last duplicate wins) is applied
at lookup time. -/
inductive JsonVal where
  | null
  | bool (b : Bool)
  | num (lexeme : String)
  | str (s : String)
  | arr (xs : List JsonVal)
  | obj (fields : List (String × JsonVal))

/-- JSON whitespace. -/
def isWsChar (c : Char) : Bool :=
  c = ' ' ∨ c = '\t' ∨ c = '\n' ∨ c = '\r'

/-- Skip leading JSON whitespace. -/
def skipWs : List Char → List Char
  | [] => []
  | c :: rest => if isWsChar c then skipWs rest else c :: rest

/-- Decimal digit test. -/
def isDigitCh (c : Char) : Bool := '0' ≤ c ∧ c ≤ '9'

/-- Hexadecimal digit value. -/
def hexVal (c : Char) : Option Nat :=
  if '0' ≤ c ∧ c ≤ '9' then some (c.toNat - 48)
  else if 'a' ≤ c ∧ c ≤ 'f' then some (c.toNat - 97 + 10)
  else if 'A' ≤ c ∧ c ≤ 'F' then some (c.toNat - 65 + 10)
  else none

/-- Split the longest leading run of decimal digits. -/
def spanDigits : List Char → List Char × List Char
  | [] => ([], [])
  | c :: rest =>
    if isDigitCh c then
      let p := spanDigits rest
      (c :: p.1, p.2)
    else ([], c :: rest)

/-- The integer part of a JSON number: `0`, or a nonzero digit followed by
digits (a redundant leading zero is not part of the number). -/
def parseIntPart : List Char → Option (List Char × List Char)
  | [] => none
  | c :: rest =>
    if c = '0' then some (['0'], rest)
    else if isDigitCh c then
      let p := spanDigits rest
      some (c :: p.1, p.2)
    else none

/-- The optional exponent part of a JSON number. -/
def parseExpPart (cs : List Char) : Option (List Char × List Char) :=
  match cs with
  | c :: rest =>
    if c = 'e' ∨ c = 'E' then
      let sp : List Char × List Char :=
        match rest with
        | '+' :: r => (['+'], r)
        | '-' :: r => (['-'], r)
        | r => ([], r)
      let dg := spanDigits sp.2
      if dg.1 = [] then none else some (c :: (sp.1 ++ dg.1), dg.2)
    else some ([], cs)
  | [] => some ([], [])

/-- The lexeme of a JSON number, when `cs` begins with one. -/
def parseNumber (cs : List Char) : Option (List Char × List Char) :=
  let sn : List Char × List Char :=
    match cs with
    | '-' :: r => (['-'], r)
    | r => ([], r)
  match parseIntPart sn.2 with
  | none => none
  | some (ip, cs2) =>
    match cs2 with
    | '.' :: cs3 =>
      let fd := spanDigits cs3
      if fd.1 = [] then none
      else
        match parseExpPart fd.2 with
        | none => none
        | some (ep, cs5) => some (sn.1 ++ ip ++ '.' :: (fd.1 ++ ep), cs5)
    | _ =>
      match parseExpPart cs2 with
      | none => none
      | some (ep, cs5) => some (sn.1 ++ ip ++ ep, cs5)

/-- The body of a JSON string after the opening quote: the decoded
characters and the input after the closing quote.  Handles the nine
escapes including `\uXXXX` with surrogate pairing; an unescaped control
character is rejected; a lone surrogate becomes U+FFFD (see above). -/
def parseJStringF : Nat → List Char → Option (List Char × List Char)
  | 0, _ => none
  | Nat.succ _, [] => none
  | Nat.succ fuel, c :: rest =>
    if c = '"' then some ([], rest)
    else if c = '\\' then
      match rest with
      | [] => none
      | e :: rest2 =>
        if e = 'u' then
          match rest2 with
          | h1 :: h2 :: h3 :: h4 :: rest3 =>
            match hexVal h1, hexVal h2, hexVal h3, hexVal h4 with
            | some a, some b, some cc, some d =>
              let u := ((a * 16 + b) * 16 + cc) * 16 + d
              if 55296 ≤ u ∧ u < 56320 then
                match hre : rest3 with
                | '\\' :: 'u' :: g1 :: g2 :: g3 :: g4 :: rest5 =>
                  match hexVal g1, hexVal g2, hexVal g3, hexVal g4 with
                  | some a2, some b2, some c2, some d2 =>
                    let u2 := ((a2 * 16 + b2) * 16 + c2) * 16 + d2
                    if 56320 ≤ u2 ∧ u2 < 57344 then
                      match parseJStringF fuel rest5 with
                      | some (s, r) =>
                        some ((Char.ofNat (65536 + (u - 55296) * 1024 + (u2 - 56320))) :: s, r)
                      | none => none
                    else
                      match parseJStringF fuel ('\\' :: 'u' :: g1 :: g2 :: g3 :: g4 :: rest5) with
                      | some (s, r) => some ('�' :: s, r)
                      | none => none
                  | _, _, _, _ =>
                    match parseJStringF fuel ('\\' :: 'u' :: g1 :: g2 :: g3 :: g4 :: rest5) with
                    | some (s, r) => some ('�' :: s, r)
                    | none => none
                | _ =>
                  match parseJStringF fuel rest3 with
                  | some (s, r) => some ('�' :: s, r)
                  | none => none
              else if 56320 ≤ u ∧ u < 57344 then
                match parseJStringF fuel rest3 with
                | some (s, r) => some ('�' :: s, r)
                | none => none
              else
                match parseJStringF fuel rest3 with
                | some (s, r) => some (Char.ofNat u :: s, r)
                | none => none
            | _, _, _, _ => none
          | _ => none
        else
          match
            (if e = '"' then some '"'
            else if e = '\\' then some '\\'
            else if e = '/' then some '/'
            else if e = 'b' then some (Char.ofNat 8)
            else if e = 'f' then some (Char.ofNat 12)
            else if e = 'n' then some '\n'
            else if e = 'r' then some '\r'
            else if e = 't' then some '\t'
            else none : Option Char) with
          | some ch =>
            match parseJStringF fuel rest2 with
            | some (s, r) => some (ch :: s, r)
            | none => none
          | none => none
    else if c.toNat < 32 then none
    else
      match parseJStringF fuel rest with
      | some (s, r) => some (c :: s, r)
      | none => none
/-- The body of a JSON string after the opening quote (see
`parseJStringF`); one fuel unit per character always suffices because
every step of `parseJStringF` consumes at least one character. -/
def parseJString (cs : List Char) : Option (List Char × List Char) :=
  parseJStringF (cs.length + 1) cs

mutual

/-- One JSON value, after skipping leading whitespace; `fuel` dominates the
nesting depth (two units per level, see `jsonParse`). -/
def parseJValue : Nat → List Char → Option (JsonVal × List Char)
  | 0, _ => none
  | Nat.succ fuel, cs =>
    match skipWs cs with
    | 'n' :: 'u' :: 'l' :: 'l' :: rest => some (.null, rest)
    | 't' :: 'r' :: 'u' :: 'e' :: rest => some (.bool true, rest)
    | 'f' :: 'a' :: 'l' :: 's' :: 'e' :: rest => some (.bool false, rest)
    | '"' :: rest =>
      match parseJString rest with
      | some (s, r) => some (.str (String.mk s), r)
      | none => none
    | '[' :: rest =>
      match skipWs rest with
      | ']' :: rest2 => some (.arr [], rest2)
      | rest2 =>
        match parseJElems fuel rest2 with
        | some (xs, r) => some (.arr xs, r)
        | none => none
    | '{' :: rest =>
      match skipWs rest with
      | '}' :: rest2 => some (.obj [], rest2)
      | rest2 =>
        match parseJFields fuel rest2 with
        | some (fs, r) => some (.obj fs, r)
        | none => none
    | cs2 =>
      match parseNumber cs2 with
      | some (lx, r) => some (.num (String.mk lx), r)
      | none => none

/-- The comma-separated elements of a nonempty array, up to `]`. -/
def parseJElems : Nat → List Char → Option (List JsonVal × List Char)
  | 0, _ => none
  | Nat.succ fuel, cs =>
    match parseJValue fuel cs with
    | none => none
    | some (v, rest) =>
      match skipWs rest with
      | ',' :: rest2 =>
        match parseJElems fuel rest2 with
        | some (xs, r) => some (v :: xs, r)
        | none => none
      | ']' :: rest2 => some ([v], rest2)
      | _ => none

/-- The comma-separated members of a nonempty object, up to `}`. -/
def parseJFields : Nat → List Char → Option (List (String × JsonVal) × List Char)
  | 0, _ => none
  | Nat.succ fuel, cs =>
    match skipWs cs with
    | '"' :: rest =>
      match parseJString rest with
      | none => none
      | some (k, rest2) =>
        match skipWs rest2 with
        | ':' :: rest3 =>
          match parseJValue fuel rest3 with
          | none => none
          | some (v, rest4) =>
            match skipWs rest4 with
            | ',' :: rest5 =>
              match parseJFields fuel rest5 with
              | some (fs, r) => some ((String.mk k, v) :: fs, r)
              | none => none
            | '}' :: rest5 => some ([(String.mk k, v)], rest5)
            | _ => none
        | _ => none
    | _ => none

end

/-- `JSON.parse`: parse one value and insist nothing but whitespace
follows.  The fuel `2 * length + 2` suffices for every input the grammar
accepts, since descending one nesting level always consumes at least one
character and costs at most two fuel units. -/
def jsonParse (s : String) : Option JsonVal :=
  match parseJValue (2 * s.data.length + 2) s.data with
  | some (v, rest) => if skipWs rest = [] then some v else none
  | none => none

/-! ### Text decoders

`buf.toString("utf8")` and `buf.toString("utf16le")` never throw; invalid
input produces U+FFFD replacement characters.  (For multi-byte UTF-8 error
sequences Node's exact replacement-character count can differ from this
decoder; every concrete input below is plain ASCII bytes.  A lone
surrogate code unit, which Node keeps in the JS string, becomes U+FFFD
here since Lean strings hold scalar values only.) -/

/-- Is `b` a UTF-8 continuation byte? -/
def isCont (b : Nat) : Bool := 128 ≤ b ∧ b < 192

/-- `buf.toString("utf8")`, with structural fuel (see `utf8Decode`). -/
def utf8DecodeF : Nat → List Nat → List Char
  | 0, _ => []
  | Nat.succ _, [] => []
  | Nat.succ fuel, b :: rest =>
    if b < 128 then Char.ofNat b :: utf8DecodeF fuel rest
    else if b < 194 then '�' :: utf8DecodeF fuel rest
    else if b < 224 then
      match rest with
      | b1 :: rest2 =>
        if isCont b1 then Char.ofNat ((b - 192) * 64 + (b1 - 128)) :: utf8DecodeF fuel rest2
        else '�' :: utf8DecodeF fuel (b1 :: rest2)
      | [] => ['�']
    else if b < 240 then
      match rest with
      | b1 :: b2 :: rest3 =>
        if isCont b1 ∧ isCont b2 then
          let v := (b - 224) * 4096 + (b1 - 128) * 64 + (b2 - 128)
          if 2048 ≤ v ∧ ¬ (55296 ≤ v ∧ v < 57344) then Char.ofNat v :: utf8DecodeF fuel rest3
          else '�' :: utf8DecodeF fuel (b1 :: b2 :: rest3)
        else '�' :: utf8DecodeF fuel (b1 :: b2 :: rest3)
      | _ => ['�']
    else if b < 245 then
      match rest with
      | b1 :: b2 :: b3 :: rest4 =>
        if isCont b1 ∧ isCont b2 ∧ isCont b3 then
          let v := (b - 240) * 262144 + (b1 - 128) * 4096 + (b2 - 128) * 64 + (b3 - 128)
          if 65536 ≤ v ∧ v < 1114112 then Char.ofNat v :: utf8DecodeF fuel rest4
          else '�' :: utf8DecodeF fuel (b1 :: b2 :: b3 :: rest4)
        else '�' :: utf8DecodeF fuel (b1 :: b2 :: b3 :: rest4)
      | _ => ['�']
    else '�' :: utf8DecodeF fuel rest

/-- `buf.toString("utf8")` as a character list; one fuel unit per byte
always suffices because every step consumes at least one byte. -/
def utf8Decode (l : List Nat) : List Char :=
  utf8DecodeF (l.length + 1) l

/-- `buf.toString("utf16le")` as a character list: bytes are paired little
endian into code units (a trailing odd byte is dropped, as Node does),
surrogate pairs are combined. -/
def utf16leDecodeF : Nat → List Nat → List Char
  | 0, _ => []
  | Nat.succ fuel, b0 :: b1 :: rest =>
    let u := b0 + 256 * b1
    if 55296 ≤ u ∧ u < 56320 then
      match rest with
      | c0 :: c1 :: rest2 =>
        let u2 := c0 + 256 * c1
        if 56320 ≤ u2 ∧ u2 < 57344 then
          Char.ofNat (65536 + (u - 55296) * 1024 + (u2 - 56320)) :: utf16leDecodeF fuel rest2
        else '�' :: utf16leDecodeF fuel (c0 :: c1 :: rest2)
      | _ => ['�']
    else if 56320 ≤ u ∧ u < 57344 then '�' :: utf16leDecodeF fuel rest
    else Char.ofNat u :: utf16leDecodeF fuel rest
  | Nat.succ _, _ => []

/-- `buf.toString("utf16le")` as a character list; one fuel unit per byte
always suffices because every step consumes at least two bytes. -/
def utf16leDecode (l : List Nat) : List Char :=
  utf16leDecodeF (l.length + 1) l

/-! ### `readJsonBody` (source lines 70-87) -/

/-- Outcome of `readJsonBody`: the parsed body, or the `throw` of line 82. -/
inductive DecodeOut where
  | ok (v : JsonVal)
  | decodeError

/-- The message of the error thrown at source lines 82-84. -/
def decodeErrorMessage : String :=
  "Invalid JSON body (could not decode as UTF-8 or UTF-16LE)."

/-- `readJsonBody`: try `JSON.parse` on the UTF-8 decoding of the body
bytes; on failure retry on the UTF-16LE decoding of the same bytes; if
both fail, throw. -/
def readJsonBody (bytes : List Nat) : DecodeOut :=
  match jsonParse (String.mk (utf8Decode bytes)) with
  | some v => .ok v
  | none =>
    match jsonParse (String.mk (utf16leDecode bytes)) with
    | some v => .ok v
    | none => .decodeError

/-! ### JavaScript value helpers used by the handlers -/

/-- JavaScript truthiness of a JSON value (`undefined` is handled at the
`Option` level by the callers).  The only falsy values producible by
`JSON.parse` are `null`, `false`, `0` (any literal denoting the double
zero) and the empty string. -/
def jsTruthy : JsonVal → Bool
  | .null => false
  | .bool b => b
  | .str s => !(s == "")
  | .num lx =>
    -- a JSON number literal denotes zero iff its mantissa has no nonzero digit
    !((match lx.data with
      | '-' :: r => r
      | r => r).takeWhile (fun c => ¬ (c = 'e' ∨ c = 'E'))).all
        (fun c => c = '0' ∨ c = '.')
  | .arr _ => true
  | .obj _ => true

/-- Property lookup on a decoded body: JS object-literal semantics keep
the last duplicate; destructuring a non-object yields `undefined`
(`none`). -/
def jsField (body : JsonVal) (k : String) : Option JsonVal :=
  match body with
  | .obj fs => ((fs.filter (fun p => p.1 == k)).getLast?).map Prod.snd
  | _ => none

/-- `const { f } = body || {}` followed by use of field `f`: a falsy body
is replaced by the empty object first (source line 95). -/
def getField (body : JsonVal) (k : String) : Option JsonVal :=
  if jsTruthy body then jsField body k else none

/-- Truthiness of a possibly-absent field value (`!x` on a destructured
field). -/
def fieldTruthy : Option JsonVal → Bool
  | some v => jsTruthy v
  | none => false

/-- Truthiness of a possibly-unset environment string. -/
def truthyStr : Option String → Bool
  | some s => !(s == "")
  | none => false

/-- JavaScript `a || b` on two possibly-unset environment strings. -/
def jsOrStr (a b : Option String) : Option String :=
  if truthyStr a then a else b

/-- JavaScript `a || dflt` with a string literal default. -/
def jsOrDefault (a : Option String) (dflt : String) : String :=
  match a with
  | some s => if s == "" then dflt else s
  | none => dflt

/-! ### Base64 decoding (source line 129)

`Buffer.from(s, "base64")` never throws: characters outside the standard
and URL-safe alphabets (including `=` padding) are dropped, then each
complete group of 4 sextets yields 3 bytes, a trailing group of 3 yields
2, of 2 yields 1, and a lone trailing sextet yields nothing. -/

/-- Sextet value of a base64 character (standard and URL-safe alphabets). -/
def b64Val (c : Char) : Option Nat :=
  if 'A' ≤ c ∧ c ≤ 'Z' then some (c.toNat - 65)
  else if 'a' ≤ c ∧ c ≤ 'z' then some (c.toNat - 97 + 26)
  else if '0' ≤ c ∧ c ≤ '9' then some (c.toNat - 48 + 52)
  else if c = '+' ∨ c = '-' then some 62
  else if c = '/' ∨ c = '_' then some 63
  else none

/-- Reassemble bytes from sextets. -/
def b64Quads : List Nat → List Nat
  | a :: b :: c :: d :: rest =>
    (a * 4 + b / 16) :: (b % 16 * 16 + c / 4) :: (c % 4 * 64 + d) :: b64Quads rest
  | [a, b] => [a * 4 + b / 16]
  | [a, b, c] => [a * 4 + b / 16, b % 16 * 16 + c / 4]
  | _ => []

/-- `Buffer.from(s, "base64")`. -/
def base64Decode (s : String) : List Nat :=
  b64Quads (s.data.filterMap b64Val)

/-! ### The two HTTP handlers -/

/-- The environment variables either handler reads. -/
structure Env where
  SPEECH_KEY : Option String
  AZURE_SPEECH_KEY : Option String
  SPEECH_REGION : Option String
  AZURE_SPEECH_REGION : Option String

/-- Outcome of the deterministic prefix of the `assess` handler: either an
error response `{ status, jsonBody: { error } }` was returned, or control
reached the external Speech-SDK call with these arguments (the success
path past that point depends on the remote recognizer). -/
inductive AssessOutcome where
  | response (status : Nat) (errorMsg : String)
  | callRecognizer (key region : String) (pcm : List Nat) (sampleRate : Nat)
      (referenceText locale : JsonVal)

/-- The credential lookup of the `assess` handler (source lines 116-127):
`SPEECH_KEY || AZURE_SPEECH_KEY` and `SPEECH_REGION || AZURE_SPEECH_REGION`,
failing when either result is falsy. -/
def assessConfig (env : Env) : Option (String × String) :=
  let speechKey := jsOrStr env.SPEECH_KEY env.AZURE_SPEECH_KEY
  let speechRegion := jsOrStr env.SPEECH_REGION env.AZURE_SPEECH_REGION
  if truthyStr speechKey ∧ truthyStr speechRegion then
    some (speechKey.getD "", speechRegion.getD "")
  else none

/-- Source lines 133-162: codec/channel/bit-depth validation and the
`subarray` sample extraction, given the parsed header. -/
def codecStage (key region : String) (wavBuffer : List Nat) (header : WavHeader)
    (referenceText locale : JsonVal) : AssessOutcome :=
  if header.audioFormat ≠ 1 then
    .response 400 ("audioFormat=" ++ toString header.audioFormat ++ ". Expected PCM (1).")
  else if header.numChannels ≠ 1 then
    .response 400 ("channels=" ++ toString header.numChannels ++ ". Expected mono (1).")
  else if header.bitsPerSample ≠ 16 then
    .response 400 ("bitsPerSample=" ++ toString header.bitsPerSample ++ ". Expected 16.")
  else
    .callRecognizer key region
      (subarray wavBuffer header.dataOffset (header.dataOffset + header.dataSize))
      header.sampleRate referenceText locale

/-- Source lines 129-162: base64 decode, `parseWav` (whose throw is caught
at the handler boundary, line 233, and returned as a 500), then
`codecStage`. -/
def wavStage (key region : String) (audio : String) (referenceText locale : JsonVal) :
    AssessOutcome :=
  let wavBuffer := base64Decode audio
  match parseWav wavBuffer with
  | .error e => .response 500 e.message
  | .ok header => codecStage key region wavBuffer header referenceText locale

/-- The deterministic prefix of the `assess` handler (source lines
92-162 together with the catch of lines 233-236).  `Buffer.from(x,
"base64")` on a non-string is modelled as the `TypeError` Node throws for
numbers, booleans, `null` and plain objects (caught at the boundary as a
500); Node would instead coerce an array of numbers, a case no theorem
below relies on. -/
def assessHandler (env : Env) (bodyBytes : List Nat) : AssessOutcome :=
  match readJsonBody bodyBytes with
  | .decodeError => .response 500 decodeErrorMessage
  | .ok body =>
    let audioBase64 := getField body "audioBase64"
    let referenceText := getField body "referenceText"
    let locale := getField body "locale"
    if ¬ fieldTruthy audioBase64 then .response 400 "audioBase64 (string) is required."
    else if ¬ fieldTruthy referenceText then .response 400 "referenceText (string) is required."
    else if ¬ fieldTruthy locale then .response 400 "locale (string) is required."
    else
      match assessConfig env with
      | none => .response 500 "Missing SPEECH_KEY or SPEECH_REGION in environment."
      | some (key, region) =>
        match audioBase64 with
        | some (.str s) =>
          wavStage key region s (referenceText.getD .null) (locale.getD .null)
        | _ => .response 500 "The first argument must be of type string."

/-- Outcome of the deterministic prefix of the `token` handler: an error
response, or the upstream `issueToken` request with the region and key it
would use. -/
inductive TokenOutcome where
  | response (status : Nat) (errorMsg : String)
  | requestToken (region key : String)
deriving DecidableEq, Repr

/-- The deterministic prefix of the `token` handler (source lines 8-27):
only `SPEECH_KEY` is consulted for the key and only `SPEECH_REGION`, with
default `"canadacentral"`, for the region. -/
def tokenHandler (env : Env) : TokenOutcome :=
  let key := env.SPEECH_KEY
  let region := jsOrDefault env.SPEECH_REGION "canadacentral"
  if ¬ truthyStr key then
    .response 500 "Missing SPEECH_KEY in local.settings.json"
  else
    .requestToken region (key.getD "")


/-! ### Concrete fixtures used by witnesses and counterexamples -/

/-- A 16-byte PCM format payload: format 1, 1 channel, 16000 Hz, byte rate
32000, block align 2, 16 bits per sample. -/
def fmtPayload16 : List Nat := [1, 0, 1, 0, 128, 62, 0, 0, 0, 125, 0, 0, 2, 0, 16, 0]

/-- A `"LIST"` metadata chunk with an odd (3-byte) payload. -/
def listChunk3 : Chunk := ([76, 73, 83, 84], [1, 2, 3])

/-- A 4-byte sample payload. -/
def samplePayload : List Nat := [170, 187, 204, 221]

/-- fmt, odd-length LIST, data: the 3-chunk fixture with an odd middle
chunk. -/
def oddFixture : List Nat := mkRiff [(fmtTag, fmtPayload16), listChunk3, (dataTag, samplePayload)]

/-- An environment carrying only the primary names. -/
def envKR : Env := ⟨some "k", none, some "r", none⟩

/-- UTF-8 bytes of `\x7b"audioBase64":"x","referenceText":"t","locale":"l"\x7d`. -/
def sampleBodyBytes : List Nat := [123, 34, 97, 117, 100, 105, 111, 66, 97, 115, 101, 54, 52, 34, 58, 34, 120, 34, 44, 34, 114, 101, 102, 101, 114, 101, 110, 99, 101, 84, 101, 120, 116, 34, 58, 34, 116, 34, 44, 34, 108, 111, 99, 97, 108, 101, 34, 58, 34, 108, 34, 125]

/-- The decoded value of `sampleBodyBytes`. -/
def sampleBodyVal : JsonVal :=
  .obj [("audioBase64", .str "x"), ("referenceText", .str "t"), ("locale", .str "l")]

/-- UTF-16LE bytes of `\x7b"a":"b"\x7d`, not decodable as UTF-8 JSON. -/
def utf16BodyBytes : List Nat := [123, 0, 34, 0, 97, 0, 34, 0, 58, 0, 34, 0, 98, 0, 34, 0, 125, 0]

/-! ### Byte-access lemmas -/

theorem byteAt_append_right (pre l : List Nat) (i : Nat) :
    byteAt (pre ++ l) (pre.length + i) = byteAt l i := by
  unfold byteAt
  rw [List.getD_append_right _ _ _ _ (Nat.le_add_right _ _), Nat.add_sub_cancel_left]

theorem byteAt_append_left (l rest : List Nat) (i : Nat) (h : i < l.length) :
    byteAt (l ++ rest) i = byteAt l i := by
  unfold byteAt
  rw [List.getD_append _ _ _ _ h]

/-- Reading inside the middle block of a three-part concatenation. -/
theorem byteAt_concat (pre l post : List Nat) (i : Nat) (h : i < l.length) :
    byteAt (pre ++ (l ++ post)) (pre.length + i) = byteAt l i := by
  rw [byteAt_append_right, byteAt_append_left _ _ _ h]

theorem readU16_concat (pre l post : List Nat) (i : Nat) (h : i + 2 ≤ l.length) :
    readU16 (pre ++ (l ++ post)) (pre.length + i) = readU16 l i := by
  unfold readU16
  rw [show pre.length + i + 1 = pre.length + (i + 1) by omega]
  rw [byteAt_concat _ _ _ _ (by omega), byteAt_concat _ _ _ _ (by omega)]

theorem readU32_concat (pre l post : List Nat) (i : Nat) (h : i + 4 ≤ l.length) :
    readU32 (pre ++ (l ++ post)) (pre.length + i) = readU32 l i := by
  unfold readU32
  rw [show pre.length + i + 1 = pre.length + (i + 1) by omega]
  rw [show pre.length + i + 2 = pre.length + (i + 2) by omega]
  rw [show pre.length + i + 3 = pre.length + (i + 3) by omega]
  rw [byteAt_concat _ _ _ _ (by omega), byteAt_concat _ _ _ _ (by omega),
    byteAt_concat _ _ _ _ (by omega), byteAt_concat _ _ _ _ (by omega)]

theorem readU32_u32le (pre post : List Nat) (n : Nat) (h : n < 4294967296) :
    readU32 (pre ++ (u32le n ++ post)) pre.length = n := by
  have h4 : (0 : Nat) + 4 ≤ (u32le n).length := by simp [u32le]
  have := readU32_concat pre (u32le n) post 0 h4
  rw [Nat.add_zero] at this
  rw [this]
  simp only [readU32, u32le, byteAt, List.getD_cons_zero, List.getD_cons_succ]
  omega

theorem map_mod128_eq (t : List Nat) (h : ∀ b ∈ t, b < 128) :
    t.map (fun x => x % 128) = t := by
  induction t with
  | nil => rfl
  | cons a t ih =>
    simp only [List.map_cons, List.cons.injEq]
    constructor
    · exact Nat.mod_eq_of_lt (h a (List.mem_cons_self a t))
    · exact ih fun b hb => h b (List.mem_cons_of_mem a hb)

/-- Slicing a 4-byte tag out of the middle of the buffer. -/
theorem asciiSlice_concat (pre t post : List Nat) (ht : t.length = 4) :
    asciiSlice (pre ++ (t ++ post)) pre.length (pre.length + 4) =
      t.map (fun x => x % 128) := by
  unfold asciiSlice
  rw [← List.append_assoc,
    List.take_left' (show (pre ++ t).length = pre.length + 4 by simp [ht]),
    List.drop_left]

theorem readU16?_at (buf pre l post : List Nat) (off i : Nat)
    (hb : buf = pre ++ (l ++ post)) (ho : off = pre.length + i)
    (h : i + 2 ≤ l.length) :
    readU16? buf off = some (readU16 l i) := by
  subst hb ho
  unfold readU16?
  rw [if_pos (by simp only [List.length_append]; omega)]
  rw [readU16_concat _ _ _ _ h]

theorem readU32?_at (buf pre l post : List Nat) (off i : Nat)
    (hb : buf = pre ++ (l ++ post)) (ho : off = pre.length + i)
    (h : i + 4 ≤ l.length) :
    readU32? buf off = some (readU32 l i) := by
  subst hb ho
  unfold readU32?
  rw [if_pos (by simp only [List.length_append]; omega)]
  rw [readU32_concat _ _ _ _ h]

theorem padBytes_length (n : Nat) : (padBytes n).length = n % 2 := by
  unfold padBytes
  by_cases h : n % 2 = 1
  · simp [h]
  · simp [h]; omega

theorem encodeChunk_length (c : Chunk) (ht : c.1.length = 4) :
    (encodeChunk c).length = 8 + c.2.length + c.2.length % 2 := by
  simp [encodeChunk, u32le, padBytes_length, ht]
  omega

/-- The chunk-scan loop, run from the start of the encoded chunk sequence,
computes exactly the specification-level fold over the chunk list. -/
theorem scanChunks_encode (cs : List Chunk) (pre : List Nat)
    (fmt : Option FmtInfo) (data : Option DataInfo)
    (hcs : ∀ c ∈ cs, ValidChunk c) :
    scanChunks (pre ++ encodeChunks cs) pre.length fmt data =
      scanFold pre.length cs fmt data := by
  induction cs generalizing pre fmt data with
  | nil =>
    have h1 : pre ++ encodeChunks [] = pre := by simp [encodeChunks]
    rw [h1]
    unfold scanChunks
    rw [dif_neg (by omega)]
    rfl
  | cons c rest ih =>
    obtain ⟨⟨htlen, htbytes⟩, hlen32, hbytes⟩ := hcs c (List.mem_cons_self c rest)
    have hrest : ∀ x ∈ rest, ValidChunk x := fun x hx => hcs x (List.mem_cons_of_mem c hx)
    have hBuf : pre ++ encodeChunks (c :: rest) = pre ++ (encodeChunk c ++ encodeChunks rest) :=
      rfl
    have hChunkLen : (encodeChunk c).length = 8 + c.2.length + c.2.length % 2 :=
      encodeChunk_length c htlen
    have hBufLen : (pre ++ encodeChunks (c :: rest)).length =
        pre.length + (8 + c.2.length + c.2.length % 2) + (encodeChunks rest).length := by
      rw [hBuf]; simp only [List.length_append, hChunkLen]; omega
    have hguard : pre.length + 8 ≤ (pre ++ encodeChunks (c :: rest)).length := by omega
    have hsize : readU32? (pre ++ encodeChunks (c :: rest)) (pre.length + 4) =
        some c.2.length := by
      have heq : pre ++ encodeChunks (c :: rest) =
          (pre ++ c.1) ++
            (u32le c.2.length ++ (c.2 ++ (padBytes c.2.length ++ encodeChunks rest))) := by
        simp [encodeChunks, encodeChunk, List.append_assoc]
      unfold readU32?
      rw [if_pos (by omega)]
      rw [heq, show pre.length + 4 = (pre ++ c.1).length by simp [htlen]]
      rw [readU32_u32le _ _ _ hlen32]
    have hid : asciiSlice (pre ++ encodeChunks (c :: rest)) pre.length (pre.length + 4) =
        c.1 := by
      have heq : pre ++ encodeChunks (c :: rest) =
          pre ++
            (c.1 ++ (u32le c.2.length ++ (c.2 ++ (padBytes c.2.length ++ encodeChunks rest)))) := by
        simp [encodeChunks, encodeChunk, List.append_assoc]
      rw [heq, asciiSlice_concat _ _ _ htlen, map_mod128_eq _ htbytes]
    have hnotrunc : ¬ (pre.length + 8 + c.2.length > (pre ++ encodeChunks (c :: rest)).length) := by
      omega
    have hoff2 : pre.length + 8 + c.2.length + c.2.length % 2 = (pre ++ encodeChunk c).length := by
      simp only [List.length_append, hChunkLen]; omega
    have hbuf2 : pre ++ encodeChunks (c :: rest) = (pre ++ encodeChunk c) ++ encodeChunks rest := by
      rw [hBuf, List.append_assoc]
    unfold scanChunks
    rw [dif_pos hguard]
    simp only [hsize, hid]
    rw [if_neg hnotrunc]
    simp only [scanFold]
    by_cases hf : c.1 = fmtTag
    · rw [if_pos hf, if_pos hf]
      by_cases h16 : c.2.length < 16
      · rw [if_pos h16, if_pos h16]
      · rw [if_neg h16, if_neg h16]
        have hfmtbuf : pre ++ encodeChunks (c :: rest) =
            (pre ++ c.1 ++ u32le c.2.length) ++
              (c.2 ++ (padBytes c.2.length ++ encodeChunks rest)) := by
          simp [encodeChunks, encodeChunk, List.append_assoc]
        have hr0 := readU16?_at _ (pre ++ c.1 ++ u32le c.2.length) c.2 _ (pre.length + 8 + 0) 0
          hfmtbuf (by simp [htlen, u32le]) (by omega)
        have hr2 := readU16?_at _ (pre ++ c.1 ++ u32le c.2.length) c.2 _ (pre.length + 8 + 2) 2
          hfmtbuf (by simp [htlen, u32le]) (by omega)
        have hr4 := readU32?_at _ (pre ++ c.1 ++ u32le c.2.length) c.2 _ (pre.length + 8 + 4) 4
          hfmtbuf (by simp [htlen, u32le]) (by omega)
        have hr14 := readU16?_at _ (pre ++ c.1 ++ u32le c.2.length) c.2 _ (pre.length + 8 + 14) 14
          hfmtbuf (by simp [htlen, u32le]) (by omega)
        simp only [hr0, hr2, hr4, hr14]
        rw [hbuf2, hoff2]
        exact ih (pre ++ encodeChunk c) _ _ hrest
    · rw [if_neg hf, if_neg hf]
      by_cases hd : c.1 = dataTag
      · rw [if_pos hd, if_pos hd]
        rw [hbuf2, hoff2]
        exact ih (pre ++ encodeChunk c) _ _ hrest
      · rw [if_neg hd, if_neg hd]
        rw [hbuf2, hoff2]
        exact ih (pre ++ encodeChunk c) _ _ hrest

/-! ### Properties of the specification-level fold -/

theorem encodeChunks_append (xs ys : List Chunk) :
    encodeChunks (xs ++ ys) = encodeChunks xs ++ encodeChunks ys := by
  induction xs with
  | nil => simp [encodeChunks]
  | cons c rest ih => simp [encodeChunks, ih]

/-- Chunks whose tag is neither `"fmt "` nor `"data"` leave the scan state
untouched. -/
theorem scanFold_skip (cs : List Chunk) (off : Nat) (fmt : Option FmtInfo)
    (data : Option DataInfo)
    (h : ∀ c ∈ cs, c.1 ≠ fmtTag ∧ c.1 ≠ dataTag) :
    scanFold off cs fmt data = .done fmt data := by
  induction cs generalizing off with
  | nil => rfl
  | cons c rest ih =>
    obtain ⟨hf, hd⟩ := h c (List.mem_cons_self c rest)
    unfold scanFold
    rw [if_neg hf, if_neg hd]
    exact ih _ fun x hx => h x (List.mem_cons_of_mem c hx)

/-- The fold over a concatenation continues from the accumulated state and
the advanced offset, provided the first part does not abort. -/
theorem scanFold_append (cs1 cs2 : List Chunk) (off : Nat) (fmt f1 : Option FmtInfo)
    (data d1 : Option DataInfo)
    (hv : ∀ c ∈ cs1, c.1.length = 4)
    (h : scanFold off cs1 fmt data = .done f1 d1) :
    scanFold off (cs1 ++ cs2) fmt data =
      scanFold (off + (encodeChunks cs1).length) cs2 f1 d1 := by
  induction cs1 generalizing off fmt data with
  | nil =>
    unfold scanFold at h
    cases h
    simp [encodeChunks]
  | cons c rest ih =>
    have ht4 : c.1.length = 4 := hv c (List.mem_cons_self c rest)
    have hvr : ∀ x ∈ rest, x.1.length = 4 := fun x hx => hv x (List.mem_cons_of_mem c hx)
    have hstep : (encodeChunks (c :: rest)).length =
        (8 + c.2.length + c.2.length % 2) + (encodeChunks rest).length := by
      simp [encodeChunks, encodeChunk_length c ht4]
    rw [List.cons_append]
    simp only [scanFold] at h ⊢
    by_cases hf : c.1 = fmtTag
    · rw [if_pos hf] at h ⊢
      by_cases h16 : c.2.length < 16
      · rw [if_pos h16] at h; cases h
      · rw [if_neg h16] at h ⊢
        rw [ih _ _ _ hvr h, hstep]
        congr 1
        omega
    · rw [if_neg hf] at h ⊢
      by_cases hd : c.1 = dataTag
      · rw [if_pos hd] at h ⊢
        rw [ih _ _ _ hvr h, hstep]
        congr 1
        omega
      · rw [if_neg hd] at h ⊢
        rw [ih _ _ _ hvr h, hstep]
        congr 1
        omega

/-! ### Loop exit, bounds safety and the data-window invariant -/

/-- When fewer than 8 bytes remain the loop is never entered. -/
theorem scanChunks_exit (buf : List Nat) (offset : Nat) (fmt : Option FmtInfo)
    (data : Option DataInfo) (h : buf.length < offset + 8) :
    scanChunks buf offset fmt data = .done fmt data := by
  unfold scanChunks
  rw [dif_neg (by omega)]

/-- When the declared payload would extend past the end of the buffer the
loop `break`s, keeping the chunks already found. -/
theorem scanChunks_stop (buf : List Nat) (offset : Nat) (fmt : Option FmtInfo)
    (data : Option DataInfo) (h8 : offset + 8 ≤ buf.length)
    (htr : buf.length < offset + 8 + readU32 buf (offset + 4)) :
    scanChunks buf offset fmt data = .done fmt data := by
  unfold scanChunks
  rw [dif_pos h8]
  have hs : readU32? buf (offset + 4) = some (readU32 buf (offset + 4)) := by
    unfold readU32?
    rw [if_pos (by omega)]
  simp only [hs]
  rw [if_pos (by omega)]

/-- The loop guard and the payload-bound check together keep every
multi-byte read inside the buffer: the `RangeError` outcome is
unreachable, on every input. -/
theorem scanChunks_ne_oob :
    ∀ (n : Nat) (buf : List Nat) (offset : Nat) (fmt : Option FmtInfo)
      (data : Option DataInfo), buf.length ≤ offset + n →
      scanChunks buf offset fmt data ≠ .oob := by
  intro n
  induction n with
  | zero =>
    intro buf offset fmt data hn
    rw [scanChunks_exit buf offset fmt data (by omega)]
    intro hc
    cases hc
  | succ n ih =>
    intro buf offset fmt data hn
    by_cases hg : offset + 8 ≤ buf.length
    · unfold scanChunks
      rw [dif_pos hg]
      have hs : readU32? buf (offset + 4) = some (readU32 buf (offset + 4)) := by
        unfold readU32?
        rw [if_pos (by omega)]
      simp only [hs]
      by_cases htr : offset + 8 + readU32 buf (offset + 4) > buf.length
      · rw [if_pos htr]
        intro hc
        cases hc
      · rw [if_neg htr]
        by_cases hfc : asciiSlice buf offset (offset + 4) = fmtTag
        · rw [if_pos hfc]
          by_cases h16 : readU32 buf (offset + 4) < 16
          · rw [if_pos h16]
            intro hc
            cases hc
          · rw [if_neg h16]
            have hb0 : readU16? buf (offset + 8 + 0) = some (readU16 buf (offset + 8 + 0)) := by
              unfold readU16?
              rw [if_pos (by omega)]
            have hb2 : readU16? buf (offset + 8 + 2) = some (readU16 buf (offset + 8 + 2)) := by
              unfold readU16?
              rw [if_pos (by omega)]
            have hb4 : readU32? buf (offset + 8 + 4) = some (readU32 buf (offset + 8 + 4)) := by
              unfold readU32?
              rw [if_pos (by omega)]
            have hb14 : readU16? buf (offset + 8 + 14) = some (readU16 buf (offset + 8 + 14)) := by
              unfold readU16?
              rw [if_pos (by omega)]
            simp only [hb0, hb2, hb4, hb14]
            exact ih buf _ _ _ (by omega)
        · rw [if_neg hfc]
          by_cases hdc : asciiSlice buf offset (offset + 4) = dataTag
          · rw [if_pos hdc]
            exact ih buf _ _ _ (by omega)
          · rw [if_neg hdc]
            exact ih buf _ _ _ (by omega)
    · rw [scanChunks_exit buf offset fmt data (by omega)]
      intro hc
      cases hc

/-- `parseWav` never performs an out-of-bounds read, whatever the input. -/
theorem parseWav_ne_oob (buf : List Nat) :
    parseWav buf ≠ .error .outOfBoundsRead := by
  unfold parseWav
  by_cases h12 : buf.length < 12
  · rw [if_pos h12]
    intro hc
    cases hc
  · rw [if_neg h12]
    by_cases hm : asciiSlice buf 0 4 ≠ riffTag ∨ asciiSlice buf 8 12 ≠ waveTag
    · rw [if_pos hm]
      intro hc
      cases hc
    · rw [if_neg hm]
      have hno := scanChunks_ne_oob buf.length buf 12 none none (by omega)
      cases hsc : scanChunks buf 12 none none with
      | done f d =>
        cases f with
        | none =>
          intro hc
          cases hc
        | some f =>
          cases d with
          | none =>
            intro hc
            cases hc
          | some d =>
            intro hc
            cases hc
      | fmtErr =>
        intro hc
        cases hc
      | oob => exact absurd hsc hno

/-- If the `data` accumulator respects the buffer bound then so does the
`data` record the loop completes with: the recorded window always satisfies
`dataOffset + dataSize ≤ buf.length`. -/
theorem scanChunks_data_inv :
    ∀ (n : Nat) (buf : List Nat) (offset : Nat) (fmt f' : Option FmtInfo)
      (data d' : Option DataInfo), buf.length ≤ offset + n →
      (∀ di, data = some di → di.dataOffset + di.dataSize ≤ buf.length) →
      scanChunks buf offset fmt data = .done f' d' →
      ∀ di, d' = some di → di.dataOffset + di.dataSize ≤ buf.length := by
  intro n
  induction n with
  | zero =>
    intro buf offset fmt f' data d' hn hinv hscan
    rw [scanChunks_exit buf offset fmt data (by omega)] at hscan
    cases hscan
    exact hinv
  | succ n ih =>
    intro buf offset fmt f' data d' hn hinv hscan
    by_cases hg : offset + 8 ≤ buf.length
    · unfold scanChunks at hscan
      rw [dif_pos hg] at hscan
      have hs : readU32? buf (offset + 4) = some (readU32 buf (offset + 4)) := by
        unfold readU32?
        rw [if_pos (by omega)]
      simp only [hs] at hscan
      by_cases htr : offset + 8 + readU32 buf (offset + 4) > buf.length
      · rw [if_pos htr] at hscan
        cases hscan
        exact hinv
      · rw [if_neg htr] at hscan
        by_cases hfc : asciiSlice buf offset (offset + 4) = fmtTag
        · rw [if_pos hfc] at hscan
          by_cases h16 : readU32 buf (offset + 4) < 16
          · rw [if_pos h16] at hscan
            cases hscan
          · rw [if_neg h16] at hscan
            have hb0 : readU16? buf (offset + 8 + 0) = some (readU16 buf (offset + 8 + 0)) := by
              unfold readU16?
              rw [if_pos (by omega)]
            have hb2 : readU16? buf (offset + 8 + 2) = some (readU16 buf (offset + 8 + 2)) := by
              unfold readU16?
              rw [if_pos (by omega)]
            have hb4 : readU32? buf (offset + 8 + 4) = some (readU32 buf (offset + 8 + 4)) := by
              unfold readU32?
              rw [if_pos (by omega)]
            have hb14 : readU16? buf (offset + 8 + 14) = some (readU16 buf (offset + 8 + 14)) := by
              unfold readU16?
              rw [if_pos (by omega)]
            simp only [hb0, hb2, hb4, hb14] at hscan
            exact ih buf _ _ _ _ _ (by omega) hinv hscan
        · rw [if_neg hfc] at hscan
          by_cases hdc : asciiSlice buf offset (offset + 4) = dataTag
          · rw [if_pos hdc] at hscan
            refine ih buf _ _ _ _ _ (by omega) ?_ hscan
            intro di hdi
            cases hdi
            simp only []
            omega
          · rw [if_neg hdc] at hscan
            exact ih buf _ _ _ _ _ (by omega) hinv hscan
    · rw [scanChunks_exit buf offset fmt data (by omega)] at hscan
      cases hscan
      exact hinv

/-- Every header `parseWav` returns satisfies the window invariant
`dataOffset + dataSize ≤ buf.length`. -/
theorem parseWav_window_inv (buf : List Nat) (h : WavHeader)
    (hp : parseWav buf = .ok h) : h.dataOffset + h.dataSize ≤ buf.length := by
  unfold parseWav at hp
  by_cases h12 : buf.length < 12
  · rw [if_pos h12] at hp
    cases hp
  · rw [if_neg h12] at hp
    by_cases hm : asciiSlice buf 0 4 ≠ riffTag ∨ asciiSlice buf 8 12 ≠ waveTag
    · rw [if_pos hm] at hp
      cases hp
    · rw [if_neg hm] at hp
      cases hsc : scanChunks buf 12 none none with
      | done f d =>
        rw [hsc] at hp
        cases f with
        | none => cases hp
        | some f =>
          cases d with
          | none => cases hp
          | some d =>
            cases hp
            have := scanChunks_data_inv buf.length buf 12 none (some f) none (some d)
              (by omega) (by intro di hdi; cases hdi) hsc d rfl
            simpa using this
      | fmtErr =>
        rw [hsc] at hp
        cases hp
      | oob =>
        rw [hsc] at hp
        cases hp

/-! ### Parsing a synthetically built container -/

/-- Parsing a synthetic container reduces to the specification-level fold
over its chunk list. -/
theorem parseWav_mkRiff (cs : List Chunk) (hcs : ∀ c ∈ cs, ValidChunk c) :
    parseWav (mkRiff cs) =
      (match scanFold 12 cs none none with
      | .oob => .error .outOfBoundsRead
      | .fmtErr => .error .invalidFmtChunk
      | .done none _ => .error .missingFmtChunk
      | .done (some _) none => .error .missingDataChunk
      | .done (some f) (some d) =>
        .ok ⟨f.audioFormat, f.numChannels, f.sampleRate, f.bitsPerSample,
          d.dataOffset, d.dataSize, d.dataSize⟩) := by
  have hb : mkRiff cs = (riffTag ++ [0, 0, 0, 0] ++ waveTag) ++ encodeChunks cs := by
    simp [mkRiff, List.append_assoc]
  have hb2 : mkRiff cs = riffTag ++ ([0, 0, 0, 0] ++ (waveTag ++ encodeChunks cs)) := by
    simp [mkRiff, List.append_assoc]
  have hb3 : mkRiff cs = (riffTag ++ [0, 0, 0, 0]) ++ (waveTag ++ encodeChunks cs) := by
    simp [mkRiff, List.append_assoc]
  have hlen : (mkRiff cs).length = 12 + (encodeChunks cs).length := by
    rw [hb, List.length_append,
      show (riffTag ++ [0, 0, 0, 0] ++ waveTag : List Nat).length = 12 from rfl]
  have hr : asciiSlice (mkRiff cs) 0 4 = riffTag := by
    rw [hb2]
    unfold asciiSlice
    rw [List.take_left' (show (riffTag : List Nat).length = 4 by rfl), List.drop_zero]
    rfl
  have hw : asciiSlice (mkRiff cs) 8 12 = waveTag := by
    have h1 := asciiSlice_concat (riffTag ++ [0, 0, 0, 0]) waveTag (encodeChunks cs) rfl
    rw [← hb3] at h1
    rw [show ((riffTag ++ [0, 0, 0, 0] : List Nat)).length = 8 from rfl] at h1
    rw [show (8 + 4 : Nat) = 12 from rfl] at h1
    rw [h1]
    rfl
  have hscan : scanChunks (mkRiff cs) 12 none none = scanFold 12 cs none none := by
    have h12 : (riffTag ++ [0, 0, 0, 0] ++ waveTag : List Nat).length = 12 := rfl
    rw [hb, show (12 : Nat) = (riffTag ++ [0, 0, 0, 0] ++ waveTag : List Nat).length from rfl]
    exact scanChunks_encode cs _ none none hcs
  unfold parseWav
  rw [if_neg (by omega)]
  rw [if_neg (by simp [hr, hw])]
  rw [hscan]

/-! ### Layout lemmas for containers with designated format/data chunks -/

theorem scanFold_cons_fmt (off : Nat) (f : List Nat) (rest : List Chunk)
    (fmt : Option FmtInfo) (data : Option DataInfo) (h16 : ¬ f.length < 16) :
    scanFold off ((fmtTag, f) :: rest) fmt data =
      scanFold (off + 8 + f.length + f.length % 2) rest (some (fmtOfPayload f)) data := by
  simp only [scanFold]
  rw [if_pos trivial, if_neg h16]

theorem scanFold_cons_data (off : Nat) (p : List Nat) (rest : List Chunk)
    (fmt : Option FmtInfo) (data : Option DataInfo) :
    scanFold off ((dataTag, p) :: rest) fmt data =
      scanFold (off + 8 + p.length + p.length % 2) rest fmt (some ⟨off + 8, p.length⟩) := by
  simp only [scanFold]
  rw [if_neg (show ¬ (dataTag = fmtTag) by decide), if_pos trivial]

theorem skip_tag4 {cs : List Chunk} (h : ∀ c ∈ cs, SkipChunk c) :
    ∀ c ∈ cs, c.1.length = 4 :=
  fun c hc => (h c hc).1.1.1

theorem skip_valid {cs : List Chunk} (h : ∀ c ∈ cs, SkipChunk c) :
    ∀ c ∈ cs, ValidChunk c :=
  fun c hc => (h c hc).1

theorem skip_tags {cs : List Chunk} (h : ∀ c ∈ cs, SkipChunk c) :
    ∀ c ∈ cs, c.1 ≠ fmtTag ∧ c.1 ≠ dataTag :=
  fun c hc => (h c hc).2

/-- The scan of a container with one `"fmt "` chunk followed (not
necessarily adjacently) by one `"data"` chunk. -/
theorem scanFold_fmt_data (pre mid post : List Chunk) (f p : List Nat) (off : Nat)
    (hpre : ∀ c ∈ pre, SkipChunk c) (hmid : ∀ c ∈ mid, SkipChunk c)
    (hpost : ∀ c ∈ post, SkipChunk c) (hf : 16 ≤ f.length) :
    scanFold off (pre ++ (fmtTag, f) :: (mid ++ (dataTag, p) :: post)) none none =
      .done (some (fmtOfPayload f))
        (some ⟨off + (encodeChunks pre).length + 8 + f.length + f.length % 2 +
          (encodeChunks mid).length + 8, p.length⟩) := by
  rw [scanFold_append pre _ off none none none none (skip_tag4 hpre)
    (scanFold_skip pre off none none (skip_tags hpre))]
  rw [scanFold_cons_fmt _ _ _ _ _ (by omega)]
  rw [scanFold_append mid _ _ (some (fmtOfPayload f)) (some (fmtOfPayload f)) none none
    (skip_tag4 hmid) (scanFold_skip mid _ (some (fmtOfPayload f)) none (skip_tags hmid))]
  rw [scanFold_cons_data]
  rw [scanFold_skip post _ _ _ (skip_tags hpost)]

/-- The scan of a container with one `"data"` chunk followed (not
necessarily adjacently) by one `"fmt "` chunk. -/
theorem scanFold_data_fmt (pre mid post : List Chunk) (f p : List Nat) (off : Nat)
    (hpre : ∀ c ∈ pre, SkipChunk c) (hmid : ∀ c ∈ mid, SkipChunk c)
    (hpost : ∀ c ∈ post, SkipChunk c) (hf : 16 ≤ f.length) :
    scanFold off (pre ++ (dataTag, p) :: (mid ++ (fmtTag, f) :: post)) none none =
      .done (some (fmtOfPayload f))
        (some ⟨off + (encodeChunks pre).length + 8, p.length⟩) := by
  rw [scanFold_append pre _ off none none none none (skip_tag4 hpre)
    (scanFold_skip pre off none none (skip_tags hpre))]
  rw [scanFold_cons_data]
  rw [scanFold_append mid _ _ none none (some ⟨off + (encodeChunks pre).length + 8, p.length⟩)
    (some ⟨off + (encodeChunks pre).length + 8, p.length⟩) (skip_tag4 hmid)
    (scanFold_skip mid _ none _ (skip_tags hmid))]
  rw [scanFold_cons_fmt _ _ _ _ _ (by omega)]
  rw [scanFold_skip post _ _ _ (skip_tags hpost)]

theorem validTag_fmt : ValidTag fmtTag := by decide

theorem validTag_data : ValidTag dataTag := by decide

/-- Validity of the chunk list of a one-fmt/one-data container. -/
theorem valid_fmt_data (pre mid post : List Chunk) (f p : List Nat)
    (hpre : ∀ c ∈ pre, SkipChunk c) (hmid : ∀ c ∈ mid, SkipChunk c)
    (hpost : ∀ c ∈ post, SkipChunk c) (hf : FmtOk f) (hp : DataOk p) :
    ∀ c ∈ pre ++ (fmtTag, f) :: (mid ++ (dataTag, p) :: post), ValidChunk c := by
  intro c hc
  rcases List.mem_append.mp hc with h1 | h2
  · exact skip_valid hpre c h1
  · rcases List.mem_cons.mp h2 with rfl | h3
    · exact ⟨validTag_fmt, hf.2.1, hf.2.2⟩
    · rcases List.mem_append.mp h3 with h4 | h5
      · exact skip_valid hmid c h4
      · rcases List.mem_cons.mp h5 with rfl | h6
        · exact ⟨validTag_data, hp.1, hp.2⟩
        · exact skip_valid hpost c h6

/-- Validity of the chunk list of a one-data/one-fmt container. -/
theorem valid_data_fmt (pre mid post : List Chunk) (f p : List Nat)
    (hpre : ∀ c ∈ pre, SkipChunk c) (hmid : ∀ c ∈ mid, SkipChunk c)
    (hpost : ∀ c ∈ post, SkipChunk c) (hf : FmtOk f) (hp : DataOk p) :
    ∀ c ∈ pre ++ (dataTag, p) :: (mid ++ (fmtTag, f) :: post), ValidChunk c := by
  intro c hc
  rcases List.mem_append.mp hc with h1 | h2
  · exact skip_valid hpre c h1
  · rcases List.mem_cons.mp h2 with rfl | h3
    · exact ⟨validTag_data, hp.1, hp.2⟩
    · rcases List.mem_append.mp h3 with h4 | h5
      · exact skip_valid hmid c h4
      · rcases List.mem_cons.mp h5 with rfl | h6
        · exact ⟨validTag_fmt, hf.2.1, hf.2.2⟩
        · exact skip_valid hpost c h6

/-- Full parse of a container whose `"fmt "` chunk precedes its `"data"`
chunk, with arbitrary skip chunks before, between and after. -/
theorem parseWav_fmt_first (pre mid post : List Chunk) (f p : List Nat)
    (hpre : ∀ c ∈ pre, SkipChunk c) (hmid : ∀ c ∈ mid, SkipChunk c)
    (hpost : ∀ c ∈ post, SkipChunk c) (hf : FmtOk f) (hp : DataOk p) :
    parseWav (mkRiff (pre ++ (fmtTag, f) :: (mid ++ (dataTag, p) :: post))) =
      .ok ⟨readU16 f 0, readU16 f 2, readU32 f 4, readU16 f 14,
        12 + (encodeChunks pre).length + 8 + f.length + f.length % 2 +
          (encodeChunks mid).length + 8, p.length, p.length⟩ := by
  rw [parseWav_mkRiff _ (valid_fmt_data pre mid post f p hpre hmid hpost hf hp)]
  rw [scanFold_fmt_data pre mid post f p 12 hpre hmid hpost hf.1]
  rfl

/-- Full parse of a container whose `"data"` chunk precedes its `"fmt "`
chunk, with arbitrary skip chunks before, between and after. -/
theorem parseWav_data_first (pre mid post : List Chunk) (f p : List Nat)
    (hpre : ∀ c ∈ pre, SkipChunk c) (hmid : ∀ c ∈ mid, SkipChunk c)
    (hpost : ∀ c ∈ post, SkipChunk c) (hf : FmtOk f) (hp : DataOk p) :
    parseWav (mkRiff (pre ++ (dataTag, p) :: (mid ++ (fmtTag, f) :: post))) =
      .ok ⟨readU16 f 0, readU16 f 2, readU32 f 4, readU16 f 14,
        12 + (encodeChunks pre).length + 8, p.length, p.length⟩ := by
  rw [parseWav_mkRiff _ (valid_data_fmt pre mid post f p hpre hmid hpost hf hp)]
  rw [scanFold_data_fmt pre mid post f p 12 hpre hmid hpost hf.1]
  rfl

/-- Slicing the middle block out of a concatenation. -/
theorem subarray_middle (A p B : List Nat) :
    subarray (A ++ (p ++ B)) A.length (A.length + p.length) = p := by
  unfold subarray
  rw [List.take_append, List.take_left, List.drop_left]

/-! ### One scan step, the base64 filter property, and handler reduction -/

/-- One iteration of the chunk scan advances the cursor by exactly
`8 + size + size % 2`: past the tag, the length field, the declared
payload, and one pad byte when the payload length is odd — for every
chunk type that does not abort the parse. -/
theorem scanChunks_step (buf : List Nat) (offset size : Nat) (fmt : Option FmtInfo)
    (data : Option DataInfo)
    (h8 : offset + 8 ≤ buf.length)
    (hsz : readU32? buf (offset + 4) = some size)
    (hin : offset + 8 + size ≤ buf.length)
    (hno : ¬ (asciiSlice buf offset (offset + 4) = fmtTag ∧ size < 16)) :
    ∃ fmt' data', scanChunks buf offset fmt data =
      scanChunks buf (offset + 8 + size + size % 2) fmt' data' := by
  by_cases hfc : asciiSlice buf offset (offset + 4) = fmtTag
  · have h16 : ¬ size < 16 := fun hlt => hno ⟨hfc, hlt⟩
    have hb0 : readU16? buf (offset + 8 + 0) = some (readU16 buf (offset + 8 + 0)) := by
      unfold readU16?
      rw [if_pos (by omega)]
    have hb2 : readU16? buf (offset + 8 + 2) = some (readU16 buf (offset + 8 + 2)) := by
      unfold readU16?
      rw [if_pos (by omega)]
    have hb4 : readU32? buf (offset + 8 + 4) = some (readU32 buf (offset + 8 + 4)) := by
      unfold readU32?
      rw [if_pos (by omega)]
    have hb14 : readU16? buf (offset + 8 + 14) = some (readU16 buf (offset + 8 + 14)) := by
      unfold readU16?
      rw [if_pos (by omega)]
    refine ⟨some ⟨readU16 buf (offset + 8 + 0), readU16 buf (offset + 8 + 2),
      readU32 buf (offset + 8 + 4), readU16 buf (offset + 8 + 14)⟩, data, ?_⟩
    rw [scanChunks.eq_def, dif_pos h8]
    simp only [hsz]
    rw [if_neg (by omega), if_pos hfc, if_neg h16]
    simp only [hb0, hb2, hb4, hb14]
  · by_cases hdc : asciiSlice buf offset (offset + 4) = dataTag
    · refine ⟨fmt, some ⟨offset + 8, size⟩, ?_⟩
      rw [scanChunks.eq_def, dif_pos h8]
      simp only [hsz]
      rw [if_neg (by omega), if_neg hfc, if_pos hdc]
    · refine ⟨fmt, data, ?_⟩
      rw [scanChunks.eq_def, dif_pos h8]
      simp only [hsz]
      rw [if_neg (by omega), if_neg hfc, if_neg hdc]

/-- Dropping the elements a `filterMap` ignores does not change its
result. -/
theorem filterMap_filter_isSome {α β : Type} (f : α → Option β) (l : List α) :
    (l.filter (fun a => (f a).isSome)).filterMap f = l.filterMap f := by
  induction l with
  | nil => rfl
  | cons a t ih =>
    rcases hf : f a with _ | b
    · simp [List.filter_cons, List.filterMap_cons, hf, ih]
    · simp [List.filter_cons, List.filterMap_cons, hf, ih]

/-- When the body decodes, all three fields are truthy and the credentials
resolve, the `assess` handler outcome is exactly that of the base64 and
container stage on the `audioBase64` string. -/
theorem assessHandler_reaches_wav (env : Env) (bytes : List Nat) (body : JsonVal)
    (s key region : String)
    (hbody : readJsonBody bytes = .ok body)
    (hA : fieldTruthy (getField body "audioBase64") = true)
    (hB : fieldTruthy (getField body "referenceText") = true)
    (hC : fieldTruthy (getField body "locale") = true)
    (hcfg : assessConfig env = some (key, region))
    (hs : getField body "audioBase64" = some (.str s)) :
    assessHandler env bytes =
      wavStage key region s ((getField body "referenceText").getD .null)
        ((getField body "locale").getD .null) := by
  unfold assessHandler
  rw [hbody]
  rw [hs] at hA
  simp only [hs, hA, hB, hC, hcfg]
  simp

/-! ### The claims -/

/-- C3: for every well-formed container holding one `"fmt "` chunk and one
`"data"` chunk, parsing the variant with `"fmt "` before `"data"` and the
variant with `"data"` before `"fmt "` (with arbitrary other chunks before
or after either) yields identical `sampleRate`, `numChannels` and
`bitsPerSample`, and a `dataSize` equal to the injected data payload's
length. -/
theorem chunk_order_invariance (pre mid post : List Chunk) (f p : List Nat)
    (hpre : ∀ c ∈ pre, SkipChunk c) (hmid : ∀ c ∈ mid, SkipChunk c)
    (hpost : ∀ c ∈ post, SkipChunk c) (hf : FmtOk f) (hp : DataOk p) :
    ∃ hA hB : WavHeader,
      parseWav (mkRiff (pre ++ (fmtTag, f) :: (mid ++ (dataTag, p) :: post))) = .ok hA ∧
      parseWav (mkRiff (pre ++ (dataTag, p) :: (mid ++ (fmtTag, f) :: post))) = .ok hB ∧
      hA.sampleRate = hB.sampleRate ∧ hA.numChannels = hB.numChannels ∧
      hA.bitsPerSample = hB.bitsPerSample ∧
      hA.dataSize = p.length ∧ hB.dataSize = p.length :=
  ⟨_, _, parseWav_fmt_first pre mid post f p hpre hmid hpost hf hp,
    parseWav_data_first pre mid post f p hpre hmid hpost hf hp,
    rfl, rfl, rfl, rfl, rfl⟩

/-- Witness for C3 at a concrete container: a LIST chunk, the format
chunk, a JUNK chunk, the data chunk and a cue chunk, in both orders. -/
theorem chunk_order_invariance_witness :
    ∃ hA hB : WavHeader,
      parseWav (mkRiff ([listChunk3] ++ (fmtTag, fmtPayload16) ::
        ([([74, 85, 78, 75], [9, 9])] ++ (dataTag, samplePayload) ::
          [([99, 117, 101, 32], [7])]))) = .ok hA ∧
      parseWav (mkRiff ([listChunk3] ++ (dataTag, samplePayload) ::
        ([([74, 85, 78, 75], [9, 9])] ++ (fmtTag, fmtPayload16) ::
          [([99, 117, 101, 32], [7])]))) = .ok hB ∧
      hA.sampleRate = hB.sampleRate ∧ hA.numChannels = hB.numChannels ∧
      hA.bitsPerSample = hB.bitsPerSample ∧
      hA.dataSize = samplePayload.length ∧ hB.dataSize = samplePayload.length :=
  chunk_order_invariance [listChunk3] [([74, 85, 78, 75], [9, 9])] [([99, 117, 101, 32], [7])]
    fmtPayload16 samplePayload (by decide) (by decide) (by decide) (by decide) (by decide)

/-- C4: for every synthetically built container embedding a known sample
payload (in either chunk order), slicing the source buffer over exactly
`[dataOffset, dataOffset + dataSize)` using the parsed header reproduces
that embedded payload byte for byte. -/
theorem data_window_roundtrip (pre mid post : List Chunk) (f p : List Nat)
    (hpre : ∀ c ∈ pre, SkipChunk c) (hmid : ∀ c ∈ mid, SkipChunk c)
    (hpost : ∀ c ∈ post, SkipChunk c) (hf : FmtOk f) (hp : DataOk p) :
    (∃ h : WavHeader,
      parseWav (mkRiff (pre ++ (fmtTag, f) :: (mid ++ (dataTag, p) :: post))) = .ok h ∧
      h.dataSize = p.length ∧
      subarray (mkRiff (pre ++ (fmtTag, f) :: (mid ++ (dataTag, p) :: post)))
        h.dataOffset (h.dataOffset + h.dataSize) = p) ∧
    (∃ h : WavHeader,
      parseWav (mkRiff (pre ++ (dataTag, p) :: (mid ++ (fmtTag, f) :: post))) = .ok h ∧
      h.dataSize = p.length ∧
      subarray (mkRiff (pre ++ (dataTag, p) :: (mid ++ (fmtTag, f) :: post)))
        h.dataOffset (h.dataOffset + h.dataSize) = p) := by
  constructor
  · refine ⟨_, parseWav_fmt_first pre mid post f p hpre hmid hpost hf hp, rfl, ?_⟩
    show subarray (mkRiff (pre ++ (fmtTag, f) :: (mid ++ (dataTag, p) :: post)))
      (12 + (encodeChunks pre).length + 8 + f.length + f.length % 2 +
        (encodeChunks mid).length + 8)
      (12 + (encodeChunks pre).length + 8 + f.length + f.length % 2 +
        (encodeChunks mid).length + 8 + p.length) = p
    have hdecomp : mkRiff (pre ++ (fmtTag, f) :: (mid ++ (dataTag, p) :: post)) =
        (riffTag ++ [0, 0, 0, 0] ++ waveTag ++ encodeChunks pre ++ encodeChunk (fmtTag, f) ++
          encodeChunks mid ++ dataTag ++ u32le p.length) ++
        (p ++ (padBytes p.length ++ encodeChunks post)) := by
      simp [mkRiff, encodeChunks_append, encodeChunks, encodeChunk, List.append_assoc]
    have hAlen : (riffTag ++ [0, 0, 0, 0] ++ waveTag ++ encodeChunks pre ++
        encodeChunk (fmtTag, f) ++ encodeChunks mid ++ dataTag ++ u32le p.length).length =
        12 + (encodeChunks pre).length + 8 + f.length + f.length % 2 +
          (encodeChunks mid).length + 8 := by
      simp only [List.length_append, encodeChunk_length (fmtTag, f) rfl,
        show (riffTag : List Nat).length = 4 from rfl,
        show ([0, 0, 0, 0] : List Nat).length = 4 from rfl,
        show (waveTag : List Nat).length = 4 from rfl,
        show (dataTag : List Nat).length = 4 from rfl,
        show (u32le p.length).length = 4 from rfl]
      omega
    rw [hdecomp, ← hAlen]
    all_goals exact subarray_middle _ _ _
  · refine ⟨_, parseWav_data_first pre mid post f p hpre hmid hpost hf hp, rfl, ?_⟩
    show subarray (mkRiff (pre ++ (dataTag, p) :: (mid ++ (fmtTag, f) :: post)))
      (12 + (encodeChunks pre).length + 8)
      (12 + (encodeChunks pre).length + 8 + p.length) = p
    have hdecomp : mkRiff (pre ++ (dataTag, p) :: (mid ++ (fmtTag, f) :: post)) =
        (riffTag ++ [0, 0, 0, 0] ++ waveTag ++ encodeChunks pre ++ dataTag ++
          u32le p.length) ++
        (p ++ (padBytes p.length ++ encodeChunks (mid ++ (fmtTag, f) :: post))) := by
      simp [mkRiff, encodeChunks_append, encodeChunks, encodeChunk, List.append_assoc]
    have hAlen : (riffTag ++ [0, 0, 0, 0] ++ waveTag ++ encodeChunks pre ++ dataTag ++
        u32le p.length).length = 12 + (encodeChunks pre).length + 8 := by
      simp only [List.length_append,
        show (riffTag : List Nat).length = 4 from rfl,
        show ([0, 0, 0, 0] : List Nat).length = 4 from rfl,
        show (waveTag : List Nat).length = 4 from rfl,
        show (dataTag : List Nat).length = 4 from rfl,
        show (u32le p.length).length = 4 from rfl]
    rw [hdecomp, ← hAlen]
    all_goals exact subarray_middle _ _ _

/-- Witness for C4 at a concrete container in both chunk orders. -/
theorem data_window_roundtrip_witness :
    (∃ h : WavHeader,
      parseWav (mkRiff ([listChunk3] ++ (fmtTag, fmtPayload16) ::
        ([] ++ (dataTag, samplePayload) :: []))) = .ok h ∧
      h.dataSize = samplePayload.length ∧
      subarray (mkRiff ([listChunk3] ++ (fmtTag, fmtPayload16) ::
        ([] ++ (dataTag, samplePayload) :: [])))
        h.dataOffset (h.dataOffset + h.dataSize) = samplePayload) ∧
    (∃ h : WavHeader,
      parseWav (mkRiff ([listChunk3] ++ (dataTag, samplePayload) ::
        ([] ++ (fmtTag, fmtPayload16) :: []))) = .ok h ∧
      h.dataSize = samplePayload.length ∧
      subarray (mkRiff ([listChunk3] ++ (dataTag, samplePayload) ::
        ([] ++ (fmtTag, fmtPayload16) :: [])))
        h.dataOffset (h.dataOffset + h.dataSize) = samplePayload) :=
  data_window_roundtrip [listChunk3] [] [] fmtPayload16 samplePayload
    (by decide) (by decide) (by decide) (by decide) (by decide)

/-- C9 (implicit): when a container holds more than one `"fmt "` chunk or
more than one `"data"` chunk within the scanned range, the parser returns
the fields of the last such chunk encountered — each later occurrence
silently overwrites the earlier one, and the scan does not stop early once
both chunk kinds have been found. -/
theorem duplicate_chunks_last_wins (pre mid post : List Chunk) (f1 p1 f2 p2 : List Nat)
    (hpre : ∀ c ∈ pre, SkipChunk c) (hmid : ∀ c ∈ mid, SkipChunk c)
    (hpost : ∀ c ∈ post, SkipChunk c)
    (hf1 : FmtOk f1) (hp1 : DataOk p1) (hf2 : FmtOk f2) (hp2 : DataOk p2) :
    parseWav (mkRiff (pre ++ (fmtTag, f1) :: (dataTag, p1) ::
        (mid ++ (fmtTag, f2) :: (dataTag, p2) :: post))) =
      .ok ⟨readU16 f2 0, readU16 f2 2, readU32 f2 4, readU16 f2 14,
        12 + (encodeChunks pre).length + 8 + f1.length + f1.length % 2 + 8 + p1.length +
          p1.length % 2 + (encodeChunks mid).length + 8 + f2.length + f2.length % 2 + 8,
        p2.length, p2.length⟩ := by
  have hcs : ∀ c ∈ pre ++ (fmtTag, f1) :: (dataTag, p1) ::
      (mid ++ (fmtTag, f2) :: (dataTag, p2) :: post), ValidChunk c := by
    intro c hc
    rcases List.mem_append.mp hc with h1 | h2
    · exact skip_valid hpre c h1
    · rcases List.mem_cons.mp h2 with rfl | h3
      · exact ⟨validTag_fmt, hf1.2.1, hf1.2.2⟩
      · rcases List.mem_cons.mp h3 with rfl | h4
        · exact ⟨validTag_data, hp1.1, hp1.2⟩
        · rcases List.mem_append.mp h4 with h5 | h6
          · exact skip_valid hmid c h5
          · rcases List.mem_cons.mp h6 with rfl | h7
            · exact ⟨validTag_fmt, hf2.2.1, hf2.2.2⟩
            · rcases List.mem_cons.mp h7 with rfl | h8
              · exact ⟨validTag_data, hp2.1, hp2.2⟩
              · exact skip_valid hpost c h8
  rw [parseWav_mkRiff _ hcs]
  rw [scanFold_append pre _ 12 none none none none (skip_tag4 hpre)
    (scanFold_skip pre 12 none none (skip_tags hpre))]
  rw [scanFold_cons_fmt _ _ _ _ _ (by have := hf1.1; omega)]
  rw [scanFold_cons_data]
  rw [scanFold_append mid _ _ _ _ _ _ (skip_tag4 hmid)
    (scanFold_skip mid _ _ _ (skip_tags hmid))]
  rw [scanFold_cons_fmt _ _ _ _ _ (by have := hf2.1; omega)]
  rw [scanFold_cons_data]
  rw [scanFold_skip post _ _ _ (skip_tags hpost)]
  rfl

/-- Witness for C9: two format chunks with different sample rates and two
data chunks with different payloads; the parse reports the second of
each. -/
theorem duplicate_chunks_last_wins_witness :
    parseWav (mkRiff ([] ++ (fmtTag, [1, 0, 1, 0, 64, 31, 0, 0, 128, 62, 0, 0, 2, 0, 16, 0]) ::
        (dataTag, [1, 2]) :: ([listChunk3] ++ (fmtTag, fmtPayload16) ::
          (dataTag, samplePayload) :: []))) =
      .ok ⟨readU16 fmtPayload16 0, readU16 fmtPayload16 2, readU32 fmtPayload16 4,
        readU16 fmtPayload16 14,
        12 + (encodeChunks ([] : List Chunk)).length + 8 + 16 + 16 % 2 + 8 + 2 +
          2 % 2 + (encodeChunks [listChunk3]).length + 8 + 16 + 16 % 2 + 8,
        samplePayload.length, samplePayload.length⟩ :=
  duplicate_chunks_last_wins [] [listChunk3] []
    [1, 0, 1, 0, 64, 31, 0, 0, 128, 62, 0, 0, 2, 0, 16, 0] [1, 2]
    fmtPayload16 samplePayload
    (by decide) (by decide) (by decide) (by decide) (by decide) (by decide) (by decide)

/-- C5 counterexample: a 12-byte buffer whose first byte is `0xD2` (not
`R` = `0x52`).  Its first 4 bytes are not `"RIFF"`, yet — because Node's
`ascii` decoding clears the high bit, turning `0xD2` into `R` — the magic
check passes and the parser fails later with the missing-format-chunk
error, which is not in the `InvalidContainer` taxon, refuting the claim
that every wrong-magic buffer fails `InvalidContainer`. -/
theorem header_check_counterexample :
    [210, 73, 70, 70, 0, 0, 0, 0, 87, 65, 86, 69].take 4 ≠ riffTag ∧
    parseWav [210, 73, 70, 70, 0, 0, 0, 0, 87, 65, 86, 69] = .error .missingFmtChunk ∧
    WavError.missingFmtChunk.isInvalidContainer = false := by
  refine ⟨by decide, ?_, by decide⟩
  unfold parseWav
  rw [if_neg (by decide)]
  rw [if_neg (by decide)]
  rw [scanChunks_exit _ _ _ _ (by decide)]

/-- C5 (amended): a buffer shorter than 12 bytes fails with the
invalid-buffer error; a buffer of length at least 12 whose first 4 bytes —
after Node's `ascii` decoding clears the high bit of each byte — do not
spell `"RIFF"`, or whose bytes 8–12 likewise do not spell `"WAVE"`, fails
with the invalid-magic error; both errors are in the `InvalidContainer`
taxon; and on every input buffer whatsoever no read performed by the
parser indexes past the buffer's bounds. -/
theorem header_check_and_bounds :
    (∀ buf : List Nat, buf.length < 12 →
      parseWav buf = .error .invalidBuffer ∧
        WavError.invalidBuffer.isInvalidContainer = true) ∧
    (∀ buf : List Nat, 12 ≤ buf.length →
      (asciiSlice buf 0 4 ≠ riffTag ∨ asciiSlice buf 8 12 ≠ waveTag) →
      parseWav buf = .error .invalidRiffWave ∧
        WavError.invalidRiffWave.isInvalidContainer = true) ∧
    (∀ buf : List Nat, parseWav buf ≠ .error .outOfBoundsRead) := by
  refine ⟨?_, ?_, parseWav_ne_oob⟩
  · intro buf h
    refine ⟨?_, rfl⟩
    unfold parseWav
    rw [if_pos h]
  · intro buf h hm
    refine ⟨?_, rfl⟩
    unfold parseWav
    rw [if_neg (by omega), if_pos hm]

/-- Witness for C5 at concrete buffers: empty, all-zero 12 bytes, and an
arbitrary 3-byte buffer. -/
theorem header_check_and_bounds_witness :
    parseWav [] = .error .invalidBuffer ∧
    parseWav [0, 0, 0, 0, 0, 0, 0, 0, 0, 0, 0, 0] = .error .invalidRiffWave ∧
    parseWav [1, 2, 3] ≠ .error .outOfBoundsRead := by
  obtain ⟨h1, h2, h3⟩ := header_check_and_bounds
  exact ⟨(h1 [] (by decide)).1,
    (h2 [0, 0, 0, 0, 0, 0, 0, 0, 0, 0, 0, 0] (by decide) (Or.inl (by decide))).1,
    h3 [1, 2, 3]⟩

/-- C6: after consuming a chunk of any type whose declared payload length
is odd, the scan advances past one additional padding byte before reading
the next chunk tag (the cursor moves by `8 + size + size % 2`, which keeps
an even cursor even); and the concrete 3-chunk fixture whose middle chunk
has odd length parses its following data chunk correctly. -/
theorem odd_chunk_padding :
    (∀ (buf : List Nat) (offset size : Nat) (fmt : Option FmtInfo) (data : Option DataInfo),
      offset + 8 ≤ buf.length →
      readU32? buf (offset + 4) = some size →
      offset + 8 + size ≤ buf.length →
      ¬ (asciiSlice buf offset (offset + 4) = fmtTag ∧ size < 16) →
      (∃ fmt' data', scanChunks buf offset fmt data =
        scanChunks buf (offset + 8 + size + size % 2) fmt' data') ∧
      (offset % 2 = 0 → (offset + 8 + size + size % 2) % 2 = 0)) ∧
    parseWav oddFixture = .ok ⟨1, 1, 16000, 16, 56, 4, 4⟩ := by
  constructor
  · intro buf offset size fmt data h8 hsz hin hno
    exact ⟨scanChunks_step buf offset size fmt data h8 hsz hin hno, by omega⟩
  · exact parseWav_fmt_first [] [listChunk3] [] fmtPayload16 samplePayload
      (by decide) (by decide) (by decide) (by decide) (by decide)

/-- Witness for C6 at the odd fixture: the LIST chunk at offset 36
declares 3 payload bytes and the scan resumes at the even offset 48. -/
theorem odd_chunk_padding_witness :
    (∃ fmt' data', scanChunks oddFixture 36 none none =
      scanChunks oddFixture (36 + 8 + 3 + 3 % 2) fmt' data') ∧
    parseWav oddFixture = .ok ⟨1, 1, 16000, 16, 56, 4, 4⟩ := by
  refine ⟨((odd_chunk_padding.1 oddFixture 36 3 none none
    (by decide) (by decide) (by decide) (by decide)).1), odd_chunk_padding.2⟩

/-- C7: if during the chunk scan a chunk's declared payload would extend
past the end of the buffer, the parser stops scanning without raising an
error and the chunks already found remain valid (the loop returns its
accumulated state); consequently every header the parser returns satisfies
`dataOffset + dataSize ≤ buf.length`. -/
theorem truncation_tolerance_and_window :
    (∀ (buf : List Nat) (offset size : Nat) (fmt : Option FmtInfo) (data : Option DataInfo),
      offset + 8 ≤ buf.length →
      readU32? buf (offset + 4) = some size →
      buf.length < offset + 8 + size →
      scanChunks buf offset fmt data = .done fmt data) ∧
    (∀ (buf : List Nat) (h : WavHeader), parseWav buf = .ok h →
      h.dataOffset + h.dataSize ≤ buf.length) := by
  refine ⟨?_, parseWav_window_inv⟩
  intro buf offset size fmt data h8 hsz htr
  have hval : readU32? buf (offset + 4) = some (readU32 buf (offset + 4)) := by
    unfold readU32?
    rw [if_pos (by omega)]
  rw [hval] at hsz
  cases hsz
  exact scanChunks_stop buf offset fmt data h8 htr

/-- Witness for C7: a container whose single chunk declares 255 payload
bytes but has none, and the odd fixture's parsed window. -/
theorem truncation_tolerance_and_window_witness :
    scanChunks [82, 73, 70, 70, 0, 0, 0, 0, 87, 65, 86, 69, 65, 66, 67, 68, 255, 0, 0, 0]
      12 none none = .done none none ∧
    (⟨1, 1, 16000, 16, 56, 4, 4⟩ : WavHeader).dataOffset +
      (⟨1, 1, 16000, 16, 56, 4, 4⟩ : WavHeader).dataSize ≤ oddFixture.length := by
  constructor
  · exact truncation_tolerance_and_window.1
      [82, 73, 70, 70, 0, 0, 0, 0, 87, 65, 86, 69, 65, 66, 67, 68, 255, 0, 0, 0]
      12 255 none none (by decide) (by decide) (by decide)
  · exact truncation_tolerance_and_window.2 oddFixture _
      (parseWav_fmt_first [] [listChunk3] [] fmtPayload16 samplePayload
        (by decide) (by decide) (by decide) (by decide) (by decide))

/-- C1 counterexample: a body that is valid JSON under neither encoding is
answered with HTTP 500, not the 400 the claim requires; the decode error
is thrown and the handler's catch-all converts every thrown error to a
500 response. -/
theorem assess_parse_errors_counterexample :
    assessHandler envKR [110, 111, 116] = .response 500 decodeErrorMessage ∧
    ∀ m : String, assessHandler envKR [110, 111, 116] ≠ .response 400 m := by
  refine ⟨rfl, ?_⟩
  intro m hc
  rw [show assessHandler envKR [110, 111, 116] = .response 500 decodeErrorMessage from rfl]
    at hc
  injection hc with h1 h2
  exact absurd h1 (by decide)

/-- C1 (amended): each of the decode error (body not valid JSON under
either encoding) and the container-parser errors (invalid buffer, bad
magic, malformed format chunk, missing format chunk, missing data chunk)
is thrown, caught at the handler boundary, and reported to the client as
an HTTP 500 response whose body is `\x7b error: <message> \x7d` — not as a
400. -/
theorem assess_parse_errors_return_500 :
    (∀ (env : Env) (bytes : List Nat), readJsonBody bytes = .decodeError →
      assessHandler env bytes = .response 500 decodeErrorMessage) ∧
    (∀ (env : Env) (bytes : List Nat) (body : JsonVal) (s key region : String) (e : WavError),
      readJsonBody bytes = .ok body →
      fieldTruthy (getField body "audioBase64") = true →
      fieldTruthy (getField body "referenceText") = true →
      fieldTruthy (getField body "locale") = true →
      assessConfig env = some (key, region) →
      getField body "audioBase64" = some (.str s) →
      parseWav (base64Decode s) = .error e →
      assessHandler env bytes = .response 500 e.message) := by
  constructor
  · intro env bytes h
    unfold assessHandler
    rw [h]
  · intro env bytes body s key region e hbody hA hB hC hcfg hs he
    rw [assessHandler_reaches_wav env bytes body s key region hbody hA hB hC hcfg hs]
    unfold wavStage
    simp only [he]

/-- Witness for C1: the undecodable body, and a decodable body whose
`audioBase64` decodes to an empty buffer so the container parser throws
the invalid-buffer error; both yield 500. -/
theorem assess_parse_errors_return_500_witness :
    assessHandler envKR [110, 111, 116] = .response 500 decodeErrorMessage ∧
    assessHandler envKR sampleBodyBytes = .response 500 "Invalid WAV buffer." := by
  constructor
  · exact assess_parse_errors_return_500.1 envKR [110, 111, 116] rfl
  · exact assess_parse_errors_return_500.2 envKR sampleBodyBytes sampleBodyVal
      "x" "k" "r" .invalidBuffer rfl rfl rfl rfl rfl rfl rfl

/-- C2 counterexample: with `SPEECH_KEY` unset but `AZURE_SPEECH_KEY` set
the token endpoint still fails with 500 (it never consults the second
name), and with `SPEECH_REGION` unset but `AZURE_SPEECH_REGION` set it
still uses the hard-coded default region — refuting the claim that both
endpoints read each setting from two accepted environment-variable
names. -/
theorem config_env_names_counterexample :
    tokenHandler ⟨none, some "k2", none, some "r2"⟩ =
      .response 500 "Missing SPEECH_KEY in local.settings.json" ∧
    truthyStr (Env.AZURE_SPEECH_KEY ⟨none, some "k2", none, some "r2"⟩) = true ∧
    tokenHandler ⟨some "k", none, none, some "r2"⟩ = .requestToken "canadacentral" "k" ∧
    truthyStr (Env.AZURE_SPEECH_REGION ⟨some "k", none, none, some "r2"⟩) = true :=
  ⟨rfl, rfl, rfl, rfl⟩

/-- C2 (amended): the assessment endpoint reads the subscription key from
`SPEECH_KEY || AZURE_SPEECH_KEY` and the region from `SPEECH_REGION ||
AZURE_SPEECH_REGION` (first non-empty wins) and fails closed with HTTP 500
when either resolves falsy; the token endpoint reads only `SPEECH_KEY`
(failing with 500 when it is unset or empty, regardless of
`AZURE_SPEECH_KEY`) and only `SPEECH_REGION`, substituting the hard-coded
default region `"canadacentral"` when that single variable is absent or
empty. -/
theorem config_env_names :
    (∀ (env : Env) (ak ar : Option String),
      tokenHandler ⟨env.SPEECH_KEY, ak, env.SPEECH_REGION, ar⟩ = tokenHandler env) ∧
    (∀ env : Env, truthyStr env.SPEECH_KEY = false →
      tokenHandler env = .response 500 "Missing SPEECH_KEY in local.settings.json") ∧
    (∀ (env : Env) (k : String), env.SPEECH_KEY = some k → k ≠ "" →
      tokenHandler env = .requestToken (jsOrDefault env.SPEECH_REGION "canadacentral") k) ∧
    (∀ env : Env, truthyStr env.SPEECH_KEY = true →
      jsOrStr env.SPEECH_KEY env.AZURE_SPEECH_KEY = env.SPEECH_KEY) ∧
    (∀ env : Env, truthyStr env.SPEECH_KEY = false →
      jsOrStr env.SPEECH_KEY env.AZURE_SPEECH_KEY = env.AZURE_SPEECH_KEY) ∧
    (∀ env : Env, truthyStr env.SPEECH_REGION = true →
      jsOrStr env.SPEECH_REGION env.AZURE_SPEECH_REGION = env.SPEECH_REGION) ∧
    (∀ env : Env, truthyStr env.SPEECH_REGION = false →
      jsOrStr env.SPEECH_REGION env.AZURE_SPEECH_REGION = env.AZURE_SPEECH_REGION) ∧
    (∀ (env : Env) (bytes : List Nat) (body : JsonVal),
      readJsonBody bytes = .ok body →
      fieldTruthy (getField body "audioBase64") = true →
      fieldTruthy (getField body "referenceText") = true →
      fieldTruthy (getField body "locale") = true →
      assessConfig env = none →
      assessHandler env bytes =
        .response 500 "Missing SPEECH_KEY or SPEECH_REGION in environment.") := by
  refine ⟨fun env ak ar => rfl, ?_, ?_, ?_, ?_, ?_, ?_, ?_⟩
  · intro env h
    unfold tokenHandler
    simp [h]
  · intro env k hk hne
    unfold tokenHandler
    rw [hk]
    simp [truthyStr, hne]
  · intro env h
    unfold jsOrStr
    rw [h]
    rfl
  · intro env h
    unfold jsOrStr
    rw [h]
    rfl
  · intro env h
    unfold jsOrStr
    rw [h]
    rfl
  · intro env h
    unfold jsOrStr
    rw [h]
    rfl
  · intro env bytes body hbody hA hB hC hcfg
    unfold assessHandler
    rw [hbody]
    simp only [hA, hB, hC, hcfg]
    simp

/-- Witness for C2 at concrete environments and a concrete request
body. -/
theorem config_env_names_witness :
    tokenHandler ⟨(⟨some "k", some "a", some "r", some "b"⟩ : Env).SPEECH_KEY, none,
      (⟨some "k", some "a", some "r", some "b"⟩ : Env).SPEECH_REGION, none⟩ =
      tokenHandler ⟨some "k", some "a", some "r", some "b"⟩ ∧
    tokenHandler ⟨none, none, none, none⟩ =
      .response 500 "Missing SPEECH_KEY in local.settings.json" ∧
    tokenHandler envKR = .requestToken (jsOrDefault (some "r") "canadacentral") "k" ∧
    assessHandler ⟨none, none, none, none⟩ sampleBodyBytes =
      .response 500 "Missing SPEECH_KEY or SPEECH_REGION in environment." := by
  refine ⟨config_env_names.1 ⟨some "k", some "a", some "r", some "b"⟩ none none,
    config_env_names.2.1 ⟨none, none, none, none⟩ rfl,
    config_env_names.2.2.1 envKR "k" rfl (by decide),
    config_env_names.2.2.2.2.2.2.2 ⟨none, none, none, none⟩ sampleBodyBytes sampleBodyVal
      rfl rfl rfl rfl rfl⟩

/-- C8: the request decoder first interprets the body bytes as UTF-8 and
parses them as JSON; exactly when that fails it reinterprets the same
original bytes as UTF-16LE and parses that; a UTF-16LE-encoded body that
is not valid as UTF-8 JSON decodes via the fallback; and when both fail
the decoder fails with the error naming both attempted encodings. -/
theorem body_decoder_fallback :
    (∀ (bytes : List Nat) (v : JsonVal),
      readJsonBody bytes = .ok v ↔
        (jsonParse (String.mk (utf8Decode bytes)) = some v ∨
          (jsonParse (String.mk (utf8Decode bytes)) = none ∧
            jsonParse (String.mk (utf16leDecode bytes)) = some v))) ∧
    (∀ bytes : List Nat,
      readJsonBody bytes = .decodeError ↔
        (jsonParse (String.mk (utf8Decode bytes)) = none ∧
          jsonParse (String.mk (utf16leDecode bytes)) = none)) ∧
    (jsonParse (String.mk (utf8Decode utf16BodyBytes)) = none ∧
      readJsonBody utf16BodyBytes = .ok (.obj [("a", .str "b")])) ∧
    decodeErrorMessage = "Invalid JSON body (could not decode as UTF-8 or UTF-16LE)." := by
  refine ⟨?_, ?_, ⟨rfl, rfl⟩, rfl⟩
  · intro bytes v
    unfold readJsonBody
    rcases h8 : jsonParse (String.mk (utf8Decode bytes)) with _ | w
    · rcases h16 : jsonParse (String.mk (utf16leDecode bytes)) with _ | u
      · simp
      · simp
    · simp
  · intro bytes
    unfold readJsonBody
    rcases h8 : jsonParse (String.mk (utf8Decode bytes)) with _ | w
    · rcases h16 : jsonParse (String.mk (utf16leDecode bytes)) with _ | u
      · simp
      · simp
    · simp

/-- Witness for C8: the UTF-16LE body decodes through the fallback path of
the decoder. -/
theorem body_decoder_fallback_witness :
    readJsonBody utf16BodyBytes = .ok (.obj [("a", .str "b")]) :=
  (body_decoder_fallback.1 utf16BodyBytes (.obj [("a", .str "b")])).mpr
    (Or.inr ⟨rfl, rfl⟩)

/-- C10 (implicit): for every string value of `audioBase64`, including
strings that are not valid base64, the base64 decode step never raises —
characters outside the base64 alphabets are silently dropped — so once the
handler reaches the decode step its outcome is entirely that of the
container stage, and malformed `audioBase64` surfaces as a container-parse
failure, never as a base64 decode error. -/
theorem base64_decode_never_fails :
    (∀ s : String, base64Decode s =
      base64Decode (String.mk (s.data.filter (fun c => (b64Val c).isSome)))) ∧
    (∀ (env : Env) (bytes : List Nat) (body : JsonVal) (s key region : String),
      readJsonBody bytes = .ok body →
      fieldTruthy (getField body "audioBase64") = true →
      fieldTruthy (getField body "referenceText") = true →
      fieldTruthy (getField body "locale") = true →
      assessConfig env = some (key, region) →
      getField body "audioBase64" = some (.str s) →
      assessHandler env bytes =
        wavStage key region s ((getField body "referenceText").getD .null)
          ((getField body "locale").getD .null)) ∧
    (∀ (key region s : String) (rt loc : JsonVal),
      (∃ e, parseWav (base64Decode s) = .error e ∧
        wavStage key region s rt loc = .response 500 e.message) ∨
      (∃ h, parseWav (base64Decode s) = .ok h ∧
        wavStage key region s rt loc =
          codecStage key region (base64Decode s) h rt loc)) ∧
    assessHandler envKR sampleBodyBytes = .response 500 "Invalid WAV buffer." := by
  refine ⟨?_, assessHandler_reaches_wav, ?_, rfl⟩
  · intro s
    unfold base64Decode
    rw [show (String.mk (s.data.filter (fun c => (b64Val c).isSome))).data =
      s.data.filter (fun c => (b64Val c).isSome) from rfl]
    rw [filterMap_filter_isSome]
  · intro key region s rt loc
    rcases hp : parseWav (base64Decode s) with e | h
    · refine Or.inl ⟨e, rfl, ?_⟩
      unfold wavStage
      simp only [hp]
    · refine Or.inr ⟨h, rfl, ?_⟩
      unfold wavStage
      simp only [hp]

/-- Witness for C10: the all-invalid base64 string decodes to the empty
byte list, and the concrete request with `audioBase64` that decodes to an
empty buffer surfaces as the container invalid-buffer error. -/
theorem base64_decode_never_fails_witness :
    base64Decode "$$$" =
      base64Decode (String.mk (("$$$" : String).data.filter
        (fun c => (b64Val c).isSome))) ∧
    assessHandler envKR sampleBodyBytes = .response 500 "Invalid WAV buffer." :=
  ⟨base64_decode_never_fails.1 "$$$", base64_decode_never_fails.2.2.2⟩

end PronApi
